import Mathlib

/-!
# Dynamic DNS update, `%m` substitution and the BOOTP responder

Shallow embeddings of three functions of the DHCP distribution:

* `res_nupdate` with its private helpers `nscopy` and `nsprom`
  (`minires/res_update.c`), in namespace `ResUpdate`;
* `do_percentm` (`omapip/errwarn.c`), in namespace `Errwarn`;
* `bootp` (`server/bootp.c`), in namespace `Bootp`.

The primitives a function calls but does not define are arbitrary functions
over an abstract world state `W`, gathered in `Env`; every call is logged,
with its arguments and its result, in a transcript of `Event`s.  Constants
that come from headers are fields of `Consts`.  A condition on what a
primitive answered during a call is stated on the transcript of that call.
-/

namespace ResUpdate

/-! ## Data model -/

/-- An IPv4 address (`struct in_addr`), as the value of `s_addr`. -/
abbrev in_addr := Nat

/-- A transport endpoint (`struct sockaddr_in`).  `sin_port` holds the two
octets of the port field in memory order; `sin_zero` holds the bytes that are
not part of a named field. -/
structure sockaddr_in where
  sin_family : Nat
  sin_port : Nat × Nat
  sin_addr : in_addr
  sin_zero : List Nat
deriving DecidableEq, Repr

/-- The nameserver fields of the resolver handle (`res_state`): the address
array `nsaddr_list` and the count `nscount` of active entries. -/
structure res_state where
  nsaddr_list : List sockaddr_in
  nscount : Int
deriving DecidableEq, Repr

/-- A pending update record (`ns_updrec`).  Only the fields that
`res_nupdate` reads or passes to `res_mkupdrec` are kept; the list links
`r_link` and `r_glink` are represented by the order of a `List`. -/
structure ns_updrec where
  r_section : Nat
  r_dname : String
  r_class : Nat
  r_type : Nat
  r_ttl : Nat
deriving DecidableEq, Repr

/-- A transaction key (`ns_tsig_key`), used only as an argument of
`res_nsendsigned`. -/
structure ns_tsig_key where
  name : String
  data : List Nat
deriving DecidableEq, Repr

/-- The zone group (`struct zonegrp`); `z_link` is never used. -/
structure zonegrp where
  z_origin : String
  z_class : Nat
  z_nsaddrs : List in_addr
  z_nscount : Int
  z_flags : Nat
  z_rrlist : List ns_updrec
deriving DecidableEq, Repr

/-- `#define ZG_F_ZONESECTADDED 0x0001` -/
def ZG_F_ZONESECTADDED : Nat := 0x0001

/-- Constants of `arpa/nameser.h`, `minires/minires.h` and the system headers,
none of which is among the files modelled here. -/
structure Consts where
  MAXNS : Nat
  PACKETSZ : Nat
  MAXDNAME : Nat
  AF_INET : Nat
  NS_DEFAULTPORT : Nat
  RES_EXHAUSTIVE : Nat
  ns_r_notzone : Int
  ns_s_zn : Nat
  ns_t_soa : Nat
deriving DecidableEq, Repr

/-- One interaction of `res_nupdate` with its surroundings: a call of an
external primitive together with what it returned, or a store to the
nameserver fields of the handle. -/
inductive Event where
  /-- `res_findzonecut(statp, dname, class, ...)` returned `count` and left
  `origin` and `nsaddrs` in the output buffers. -/
  | findzonecut (dname : String) (cls : Nat) (count : Int) (origin : String)
      (nsaddrs : List in_addr)
  /-- `malloc(sizeof *zptr)`; `ok = false` is a `NULL` result. -/
  | malloc (ok : Bool)
  /-- `res_mkupdrec(section, dname, class, type, ttl)` and its result. -/
  | mkupdrec (sect : Nat) (dname : String) (cls : Nat) (type : Nat) (ttl : Nat)
      (result : Option ns_updrec)
  /-- `res_nmkupdate(statp, rrecs, packet, buflen)`, the value it returned and
  the contents it left in `packet`. -/
  | nmkupdate (rrecs : List ns_updrec) (buflen : Nat) (ret : Int) (packet : List Nat)
  /-- `res_nsend(statp, packet, len, answer, anssiz)`, with the nameserver
  fields of `statp` at the time of the call. -/
  | nsend (statp : res_state) (packet : List Nat) (len : Nat) (anssiz : Nat)
      (ret : Int) (answer : List Nat)
  /-- `res_nsendsigned(statp, packet, len, key, answer, anssiz)`. -/
  | nsendsigned (statp : res_state) (packet : List Nat) (len : Nat) (key : ns_tsig_key)
      (anssiz : Nat) (ret : Int) (answer : List Nat)
  /-- A store to `statp->nsaddr_list` and `statp->nscount`; the argument is
  the value of the two fields after the store. -/
  | ns_store (statp : res_state)
  /-- `res_freeupdrec(ISC_LIST_HEAD(zptr->z_rrlist))`. -/
  | freeupdrec (head : Option ns_updrec)
  /-- `free(zptr)`. -/
  | free
deriving DecidableEq, Repr

/-- The external primitives.  Each takes the world state and returns the new
one next to its result, so that a primitive may answer differently on every
call.  The handle is passed read-only: the primitives do not write its
nameserver fields.  Output buffers are returned with their complete contents
after the call. -/
structure Env (W : Type) where
  /-- `res_findzonecut(statp, dname, class, opts, origin, osize, addrs, naddrs)`:
  returns the server count, the origin buffer and the address buffer. -/
  res_findzonecut : W → res_state → String → Nat → Nat → Nat → Nat →
    W × Int × String × List in_addr
  /-- `malloc`: `false` is `NULL`. -/
  malloc : W → W × Bool
  /-- `ns_samename(a, b)`: 1 when the names are the same, 0 when they differ,
  -1 on error. -/
  ns_samename : String → String → Int
  /-- `res_mkupdrec(section, dname, class, type, ttl)`: `none` is `NULL`. -/
  res_mkupdrec : W → Nat → String → Nat → Nat → Nat → W × Option ns_updrec
  /-- `res_nmkupdate(statp, rrecs, buf, buflen)`: returns the length, or a
  negative value, and the buffer. -/
  res_nmkupdate : W → res_state → List ns_updrec → Nat → W × Int × List Nat
  /-- `res_nsend(statp, msg, msglen, answer, anssiz)`: returns the response
  length, or a negative value, and the answer buffer. -/
  res_nsend : W → res_state → List Nat → Nat → Nat → W × Int × List Nat
  /-- `res_nsendsigned(statp, msg, msglen, key, answer, anssiz)`. -/
  res_nsendsigned : W → res_state → List Nat → Nat → ns_tsig_key → Nat →
    W × Int × List Nat

/-- Indeterminate contents, at entry, of two automatic variables of
`res_nupdate` declared without an initialiser: `rcode` and the snapshot array
`nsaddrs[MAXNS]`. -/
structure Indeterminate where
  rcode : Int
  nsaddrs : List sockaddr_in
deriving DecidableEq, Repr

/-! ## Helpers of the C language -/

/-- Conversion of an `int` value to `unsigned` (32 bits): the assignment
`n = ...` to `unsigned n`. -/
def to_unsigned (x : Int) : Nat := (x % 4294967296).toNat

/-- The two octets, in memory order, of `htons(x)`: network byte order is
most significant octet first. -/
def htons (x : Nat) : Nat × Nat := (x / 256 % 256, x % 256)

/-- The result of `memset(&dst[i], 0, sizeof dst[i])`. -/
def sockaddr_in_zero : sockaddr_in :=
  { sin_family := 0, sin_port := (0, 0), sin_addr := 0, sin_zero := List.replicate 8 0 }

/-- `((HEADER *)answer)->rcode`: the response code is the low four bits of the
fourth octet of a DNS message header. -/
def HEADER_rcode (answer : List Nat) : Int := ((answer.getD 3 0 % 16 : Nat) : Int)

/-! ## `nscopy` and `nsprom` -/

/-- `nscopy(dst, src, n)`: `for (i = 0; i < n; i++) dst[i] = src[i]; return n;`
Returns the array `dst` after the loop and the value returned. -/
def nscopy (dst src : List sockaddr_in) (n : Int) : List sockaddr_in × Int :=
  ((List.range n.toNat).foldl (fun d i => d.set i (src.getD i sockaddr_in_zero)) dst, n)

/-- One iteration of the loop of `nsprom`: the `memset` and the three
assignments to `dst[i]`. -/
def nsprom_step (c : Consts) (src : List in_addr) (d : List sockaddr_in) (i : Nat) :
    List sockaddr_in :=
  let e0 := sockaddr_in_zero
  let e1 := { e0 with sin_family := c.AF_INET }
  let e2 := { e1 with sin_port := htons c.NS_DEFAULTPORT }
  let e3 := { e2 with sin_addr := src.getD i 0 }
  d.set i e3

/-- `nsprom(dst, src, n)`: returns the array `dst` after the loop and the
value returned. -/
def nsprom (c : Consts) (dst : List sockaddr_in) (src : List in_addr) (n : Int) :
    List sockaddr_in × Int :=
  ((List.range n.toNat).foldl (nsprom_step c src) dst, n)

/-! ## `res_nupdate` -/

/-- The automatic variables of `res_nupdate` that carry state from one
statement to the next, with the world state and the transcript so far. -/
structure Locals (W : Type) where
  world : W
  trace : List Event
  zptr : Option zonegrp
  rcode : Int

/-- The body of the grouping loop (lines 92-120) for the record `rrecp`.  The
Boolean is `true` when the body leaves by `goto done`. -/
def loop_body {W : Type} (c : Consts) (env : Env W) (statp : res_state) (s : Locals W)
    (rrecp : ns_updrec) : Bool × Locals W :=
  let fz := env.res_findzonecut s.world statp rrecp.r_dname rrecp.r_class
    c.RES_EXHAUSTIVE c.MAXDNAME c.MAXNS
  -- `z_flags` and `z_rrlist` of `tgrp` are never set; both are overwritten
  -- right after `*zptr = tgrp`.
  let tgrp : zonegrp :=
    { z_origin := fz.2.2.1, z_class := rrecp.r_class, z_nsaddrs := fz.2.2.2,
      z_nscount := fz.2.1, z_flags := 0, z_rrlist := [] }
  let s1 : Locals W :=
    { s with
      world := fz.1
      trace := s.trace ++
        [Event.findzonecut rrecp.r_dname rrecp.r_class fz.2.1 fz.2.2.1 fz.2.2.2] }
  if tgrp.z_nscount ≤ 0 then
    (true, { s1 with rcode := c.ns_r_notzone })
  else
    match s1.zptr with
    | none =>
      let m := env.malloc s1.world
      let s2 : Locals W := { s1 with world := m.1, trace := s1.trace ++ [Event.malloc m.2] }
      if m.2 = false then
        (true, s2)
      else
        let z0 := tgrp
        let z1 := { z0 with z_flags := 0 }
        let z2 := { z1 with z_rrlist := [] }
        (false, { s2 with zptr := some { z2 with z_rrlist := z2.z_rrlist ++ [rrecp] } })
    | some z =>
      if env.ns_samename tgrp.z_origin z.z_origin = 0 ∨ tgrp.z_class ≠ z.z_class then
        (true, { s1 with rcode := c.ns_r_notzone })
      else
        (false, { s1 with zptr := some { z with z_rrlist := z.z_rrlist ++ [rrecp] } })

/-- The grouping loop `for (rrecp = rrecp_in; rrecp; rrecp = ISC_LIST_NEXT(...))`
over the records still to visit. -/
def loop {W : Type} (c : Consts) (env : Env W) (statp : res_state) :
    List ns_updrec → Locals W → Bool × Locals W
  | [], s => (false, s)
  | rrecp :: rest, s =>
    match loop_body c env statp s rrecp with
    | (true, s1) => (true, s1)
    | (false, s1) => loop c env statp rest s1

/-- What a call of `res_nupdate` leaves behind: the value returned (`none`
when the call dereferences the null `zptr` and so has no defined result), the
nameserver fields of the handle, the world state and the transcript. -/
structure Outcome (W : Type) where
  ret : Option Int
  statp : res_state
  world : W
  trace : List Event

/-- The code at label `done` (lines 162-169). -/
def done {W : Type} (s : Locals W) (statp : res_state) : Outcome W :=
  match s.zptr with
  | some z =>
    let t1 :=
      if z.z_flags &&& ZG_F_ZONESECTADDED ≠ 0 then
        s.trace ++ [Event.freeupdrec z.z_rrlist.head?]
      else s.trace
    { ret := some s.rcode, statp := statp, world := s.world, trace := t1 ++ [Event.free] }
  | none => { ret := some s.rcode, statp := statp, world := s.world, trace := s.trace }

/-- `res_nupdate(statp, rrecp_in, key)`, started in world `w` with the
indeterminate values `u`. -/
def res_nupdate {W : Type} (c : Consts) (env : Env W) (w : W) (u : Indeterminate)
    (statp : res_state) (rrecp_in : List ns_updrec) (key : Option ns_tsig_key) :
    Outcome W :=
  match loop c env statp rrecp_in { world := w, trace := [], zptr := none, rcode := u.rcode } with
  | (true, s) => done s statp
  | (false, s) =>
    match s.zptr with
    | none =>
      -- `zptr->z_origin` with `zptr == NULL`
      { ret := none, statp := statp, world := s.world, trace := s.trace }
    | some z =>
      let mk := env.res_mkupdrec s.world c.ns_s_zn z.z_origin z.z_class c.ns_t_soa 0
      let s1 : Locals W :=
        { s with
          world := mk.1
          trace := s.trace ++
            [Event.mkupdrec c.ns_s_zn z.z_origin z.z_class c.ns_t_soa 0 mk.2] }
      match mk.2 with
      | none => done { s1 with rcode := -1 } statp
      | some rrecp =>
        let z1 := { z with z_rrlist := rrecp :: z.z_rrlist }
        let z2 := { z1 with z_flags := z1.z_flags ||| ZG_F_ZONESECTADDED }
        let mu := env.res_nmkupdate s1.world statp z2.z_rrlist (2 * c.PACKETSZ)
        let n : Nat := to_unsigned mu.2.1
        let packet := mu.2.2
        let s2 : Locals W :=
          { s1 with
            world := mu.1
            zptr := some z2
            trace := s1.trace ++
              [Event.nmkupdate z2.z_rrlist (2 * c.PACKETSZ) mu.2.1 packet] }
        if n < 0 then
          done { s2 with rcode := -1 } statp
        else
          let saved := nscopy u.nsaddrs statp.nsaddr_list statp.nscount
          let prom := nsprom c statp.nsaddr_list z2.z_nsaddrs z2.z_nscount
          let statp1 : res_state := { nsaddr_list := prom.1, nscount := prom.2 }
          let s3 : Locals W := { s2 with trace := s2.trace ++ [Event.ns_store statp1] }
          let sd : (W × Int × List Nat) × Event :=
            match key with
            | some k =>
              let r := env.res_nsendsigned s3.world statp1 packet n k c.PACKETSZ
              (r, Event.nsendsigned statp1 packet n k c.PACKETSZ r.2.1 r.2.2)
            | none =>
              let r := env.res_nsend s3.world statp1 packet n c.PACKETSZ
              (r, Event.nsend statp1 packet n c.PACKETSZ r.2.1 r.2.2)
          let n1 : Nat := to_unsigned sd.1.2.1
          let answer := sd.1.2.2
          let s4 : Locals W := { s3 with world := sd.1.1, trace := s3.trace ++ [sd.2] }
          let s5 : Locals W :=
            if n1 < 0 then { s4 with rcode := -1 }
            else { s4 with rcode := HEADER_rcode answer }
          -- undone:
          let back := nscopy statp1.nsaddr_list saved.1 saved.2
          let statp2 : res_state := { nsaddr_list := back.1, nscount := back.2 }
          done { s5 with trace := s5.trace ++ [Event.ns_store statp2] } statp2

/-! ## Vocabulary for the transcript -/

/-- The endpoint a zone server address `a` is normalised to: family `AF_INET`,
port `NS_DEFAULTPORT` in network byte order, address `a`, every other byte
zero. -/
def endpoint (c : Consts) (a : in_addr) : sockaddr_in :=
  { sin_family := c.AF_INET, sin_port := htons c.NS_DEFAULTPORT, sin_addr := a,
    sin_zero := List.replicate 8 0 }

/-- The event logged for the send of lines 147-151: `res_nsendsigned` with the
key when a key is supplied, `res_nsend` otherwise. -/
def send_event (c : Consts) (key : Option ns_tsig_key) (st : res_state) (pkt : List Nat)
    (len : Nat) (sr : Int) (ans : List Nat) : Event :=
  match key with
  | some k => Event.nsendsigned st pkt len k c.PACKETSZ sr ans
  | none => Event.nsend st pkt len c.PACKETSZ sr ans

/-- A call of one of the two send primitives. -/
def Event.is_send : Event → Bool
  | .nsend _ _ _ _ _ _ => true
  | .nsendsigned _ _ _ _ _ _ _ => true
  | _ => false

/-- A call of the marshal primitive `res_nmkupdate`. -/
def Event.is_marshal : Event → Bool
  | .nmkupdate _ _ _ _ => true
  | _ => false

/-- A call of `res_mkupdrec`, which creates the synthetic header record. -/
def Event.is_header : Event → Bool
  | .mkupdrec _ _ _ _ _ _ => true
  | _ => false

/-- A call of `malloc`, which allocates the zone group. -/
def Event.is_malloc : Event → Bool
  | .malloc _ => true
  | _ => false

/-- A store to the nameserver fields of the handle. -/
def Event.is_ns_store : Event → Bool
  | .ns_store _ => true
  | _ => false

/-- A zone-cut resolution that found at least one server and that the test of
lines 113-114 accepts against a group of origin `o0` and class `c0`. -/
def fz_ok (same : String → String → Int) (o0 : String) (c0 : Nat) : Event → Prop
  | .findzonecut _ cl n o _ => 0 < n ∧ same o o0 ≠ 0 ∧ cl = c0
  | _ => False

/-- A zone-cut resolution that ends the grouping loop with `ns_r_notzone`
against a group of origin `o0` and class `c0`: no server, or another zone. -/
def fz_bad (same : String → String → Int) (o0 : String) (c0 : Nat) : Event → Prop
  | .findzonecut _ cl n o _ => n ≤ 0 ∨ (0 < n ∧ (same o o0 = 0 ∨ cl ≠ c0))
  | _ => False

/-- Some record of the list, resolved in list order from world `w` (each
resolution handing its world to the next), has an origin that `ns_samename`
reports different from `o0`, or a class other than `c0`. -/
def later_mismatch {W : Type} (c : Consts) (env : Env W) (statp : res_state) (o0 : String)
    (c0 : Nat) : W → List ns_updrec → Bool
  | _, [] => false
  | w, r :: rest =>
    let fz := env.res_findzonecut w statp r.r_dname r.r_class
      c.RES_EXHAUSTIVE c.MAXDNAME c.MAXNS
    (decide (env.ns_samename fz.2.2.1 o0 = 0) || decide (r.r_class ≠ c0)) ||
      later_mismatch c env statp o0 c0 fz.1 rest

/-- Every record of the list, resolved in list order from world `w`, has at
least one server. -/
def all_have_servers {W : Type} (c : Consts) (env : Env W) (statp : res_state) :
    W → List ns_updrec → Bool
  | _, [] => true
  | w, r :: rest =>
    let fz := env.res_findzonecut w statp r.r_dname r.r_class
      c.RES_EXHAUSTIVE c.MAXDNAME c.MAXNS
    decide (0 < fz.2.1) && all_have_servers c env statp fz.1 rest

/-! ## A concrete environment -/

/-- Header constants with the values of BIND 8. -/
def demoConsts : Consts :=
  { MAXNS := 3, PACKETSZ := 512, MAXDNAME := 1025, AF_INET := 2, NS_DEFAULTPORT := 53,
    RES_EXHAUSTIVE := 1, ns_r_notzone := 10, ns_s_zn := 0, ns_t_soa := 6 }

/-- A small zone table: `example.com` has two servers, `10.in-addr.arpa` has
one, any other name has none. -/
def demoZone (dname : String) : Int × String × List in_addr :=
  if dname = "host.example.com" then (2, "example.com", [167772161, 167772162, 0])
  else if dname = "www.Example.COM" then (2, "Example.COM", [167772161, 167772162, 0])
  else if dname = "1.0.0.10.in-addr.arpa" then (1, "10.in-addr.arpa", [167772163, 0, 0])
  else (0, "", [0, 0, 0])

/-- A stateless environment: `mallocOk` and `hdrOk` say whether the two
allocations succeed, `mkret` is what `res_nmkupdate` returns, `sendret` and
`answer` are what either send primitive returns and leaves in the answer
buffer. -/
def demoEnv (mallocOk : Bool) (hdrOk : Bool) (mkret : Int) (sendret : Int)
    (answer : List Nat) : Env Unit :=
  { res_findzonecut := fun w _ dname _ _ _ _ => (w, demoZone dname)
    malloc := fun w => (w, mallocOk)
    ns_samename := fun a b =>
      if a.data.map Char.toLower = b.data.map Char.toLower then 1 else 0
    res_mkupdrec := fun w sect dname cls type ttl =>
      (w, if hdrOk then some ⟨sect, dname, cls, type, ttl⟩ else none)
    res_nmkupdate := fun w _ rrecs _ => (w, mkret, rrecs.map (fun r => r.r_type))
    res_nsend := fun w _ _ _ _ => (w, sendret, answer)
    res_nsendsigned := fun w _ _ _ _ _ => (w, sendret, answer) }

/-- The endpoint of address `a` on port 53. -/
def demoEp (a : Nat) : sockaddr_in := ⟨2, (0, 53), a, List.replicate 8 0⟩

/-- A handle with one active nameserver in an array of `MAXNS = 3` entries. -/
def demoStatp : res_state := { nsaddr_list := [demoEp 1, demoEp 2, demoEp 3], nscount := 1 }

/-- Stack contents at entry: `rcode` happens to hold `g`. -/
def demoStack (g : Int) : Indeterminate :=
  { rcode := g, nsaddrs := [demoEp 7, demoEp 8, demoEp 9] }

/-- An A record in `example.com`. -/
def recA : ns_updrec := ⟨1, "host.example.com", 1, 1, 300⟩

/-- A second record in the same zone, spelt in another case. -/
def recA2 : ns_updrec := ⟨1, "www.Example.COM", 1, 1, 300⟩

/-- A PTR record in `10.in-addr.arpa`. -/
def recPTR : ns_updrec := ⟨1, "1.0.0.10.in-addr.arpa", 1, 12, 300⟩

/-- A record whose name is in no known zone. -/
def recNone : ns_updrec := ⟨1, "nowhere.invalid", 1, 1, 300⟩

/-- A transaction key. -/
def demoKey : ns_tsig_key := { name := "update-key", data := [1, 2, 3] }

/-- A positive answer header: response bit set, rcode 0. -/
def ansNoError : List Nat := [0, 0, 128, 0]

/-- An answer header with rcode 5 (refused). -/
def ansRefused : List Nat := [0, 0, 128, 5]

end ResUpdate

namespace Errwarn

/-! ## `do_percentm` (`omapip/errwarn.c`) -/

/-- The terminator of a C string. -/
def NUL : Char := Char.ofNat 0

/-- The C string stored at the start of `mem`: the characters before the
first `NUL`. -/
def c_str (mem : List Char) : List Char := mem.takeWhile (fun ch => ch != NUL)

/-- `strlen(mem + p)`: the number of characters from index `p` to the first
`NUL`. -/
def strlen (mem : List Char) (p : Nat) : Nat := (c_str (mem.drop p)).length

/-- `strcpy(mem + dst, src)`: stores the characters of `src` and then a `NUL`,
from index `dst` on. -/
def strcpy (mem : List Char) (dst : Nat) : List Char → List Char
  | [] => mem.set dst NUL
  | ch :: rest => strcpy (mem.set dst ch) (dst + 1) rest

/-- The loop `while (*s)` of `do_percentm`.  The first argument is the message
`m`, the second what is left of the input at `s` (the end of the list is the
terminator), then `infmt`, the index `p` into `obuf`, and the contents of
`obuf`.  Returns `p` and `obuf` when the loop ends. -/
def do_percentm_loop (m : List Char) : List Char → Bool → Nat → List Char → Nat × List Char
  | [], _, p, obuf => (p, obuf)
  | ch :: s, infmt, p, obuf =>
    if ch = NUL then (p, obuf)
    else if infmt then
      if ch = 'm' then
        let obuf1 := strcpy obuf (p - 1) m
        let p1 := p + strlen obuf1 p
        do_percentm_loop m s false p1 obuf1
      else
        do_percentm_loop m s false (p + 1) (obuf.set p ch)
    else
      let infmt1 := if ch = '%' then true else infmt
      do_percentm_loop m s infmt1 (p + 1) (obuf.set p ch)

/-- The message substituted for `%m`: what `strerror (errno)` returned, or
`"<unknown error>"` when it returned `NULL` (`none`). -/
def error_message (strerror_errno : Option (List Char)) : List Char :=
  match strerror_errno with
  | some m => m
  | none => "<unknown error>".toList

/-- `do_percentm (obuf, ibuf)`: the contents of `obuf` on return.  `errno` does
not change during the call, so `strerror (errno)` is one value. -/
def do_percentm (strerror_errno : Option (List Char)) (obuf ibuf : List Char) : List Char :=
  let m := error_message strerror_errno
  let r := do_percentm_loop m ibuf false 0 obuf
  r.2.set r.1 NUL

/-- The output the specification describes: scanning left to right, a `%`
that starts a conversion and is followed by `m` is replaced, with that `m`, by
the message; every other character is copied. -/
def percentm_spec (m : List Char) : List Char → List Char
  | [] => []
  | [ch] => [ch]
  | ch :: d :: rest =>
    if ch = '%' then
      if d = 'm' then m ++ percentm_spec m rest
      else ch :: d :: percentm_spec m rest
    else ch :: percentm_spec m (d :: rest)

end Errwarn

namespace Bootp

/-! ## `bootp` (`server/bootp.c`) -/

/-- An IPv4 address (`struct in_addr`) as its four octets in memory order. -/
abbrev in_addr := List Nat

/-- The BOOTP packet on the wire (`struct dhcp_packet`). -/
structure dhcp_packet where
  op : Nat
  htype : Nat
  hlen : Nat
  hops : Nat
  xid : Nat
  secs : Nat
  flags : Nat
  ciaddr : in_addr
  yiaddr : in_addr
  siaddr : in_addr
  giaddr : in_addr
  chaddr : List Nat
  sname : List Nat
  file : List Nat
  options : List Nat
deriving DecidableEq, Repr

/-- The fields of `struct interface_info` that `bootp` reads. -/
structure interface_info where
  name : String
  primary_address : in_addr
deriving DecidableEq, Repr

/-- The fields of `struct shared_network` that `bootp` reads; `pools` is a
handle. -/
structure shared_network where
  name : String
  pools : Nat
  interface : interface_info
deriving DecidableEq, Repr

/-- A host declaration (`struct host_decl`): `fixed_addr` says whether the
pointer of that name is set, `group` is a handle.  A chain linked by
`n_ipaddr` is a `List`. -/
structure host_decl where
  name : String
  fixed_addr : Bool
  group : Nat
deriving DecidableEq, Repr

/-- The fields of `struct lease` that `bootp` reads or writes: `subnet_group`
is `lease -> subnet -> group`. -/
structure lease where
  subnet_group : Nat
  host : Option host_decl
  shared_network : shared_network
deriving DecidableEq, Repr

/-- The received packet (`struct packet`). -/
structure packet where
  raw : dhcp_packet
  options_valid : Bool
  interface : interface_info
  shared_network : Option shared_network
deriving DecidableEq, Repr

/-- The option state (`struct option_state`): `dhcp_hash` maps an option code
to the handle of its option cache. -/
structure option_state where
  dhcp_hash : List (Nat × Nat)
deriving DecidableEq, Repr

/-- A `struct data_string`: `data` is `none` for a null pointer, which is
read as no octets. -/
structure data_string where
  len : Nat
  data : Option (List Nat)
deriving DecidableEq, Repr

/-- The destination (`struct sockaddr_in to`). -/
structure sockaddr_in where
  sin_family : Nat
  sin_port : Nat
  sin_addr : in_addr
  sin_zero : List Nat
deriving DecidableEq, Repr

/-- The hardware destination (`struct hardware hto`); `haddr` holds the `hlen`
octets that `bootp` stores. -/
structure hardware where
  htype : Nat
  hlen : Nat
  haddr : List Nat
deriving DecidableEq, Repr

/-- Constants and configuration that come from `dhcpd.h` and the build;
`CHADDR_LEN` is `sizeof raw.chaddr`. -/
structure Consts where
  BOOTREQUEST : Nat
  BOOTREPLY : Nat
  SV_ALLOW_BOOTP : Nat
  SV_NEXT_SERVER : Nat
  SV_FILENAME : Nat
  SV_SERVER_NAME : Nat
  DHCP_OPTION_LEN : Nat
  DHCP_FILE_LEN : Nat
  DHCP_SNAME_LEN : Nat
  BOOTP_MIN_LEN : Int
  CHADDR_LEN : Nat
  AF_INET : Nat
  USE_FALLBACK : Bool
  local_port : Nat
  remote_port : Nat
deriving DecidableEq, Repr

/-- What `bootp` does that can be observed from outside. -/
inductive Event where
  /-- `note (fmt, ...)` with the format string `fmt`. -/
  | note (fmt : String)
  /-- `warn (fmt)`. -/
  | warn (fmt : String)
  /-- `evaluate_boolean_option_cache (packet, &options, oc)` and its result. -/
  | eval_boolean (oc : Option Nat) (result : Bool)
  /-- `ack_lease (packet, lease, 0, 0)`. -/
  | ack_lease (l : lease)
  /-- `send_fallback (&fallback_interface, 0, &raw, len, from, &to, &hto)`. -/
  | send_fallback (raw : dhcp_packet) (len : Int) (src : in_addr) (dest : sockaddr_in)
      (hto : hardware)
  /-- `send_packet (packet -> interface, packet, &raw, len, from, &to, &hto)`. -/
  | send_packet (raw : dhcp_packet) (len : Int) (src : in_addr) (dest : sockaddr_in)
      (hto : hardware)
deriving DecidableEq, Repr

/-- The functions `bootp` calls, over a world state `W`. -/
structure Env (W : Type) where
  /-- `locate_network (packet)`: `none` is a zero result, `some n` a non-zero
  result with `packet -> shared_network` set to `n`. -/
  locate_network : W → packet → W × Option shared_network
  /-- `find_hosts_by_haddr (htype, chaddr, hlen)`: the chain found. -/
  find_hosts_by_haddr : W → Nat → List Nat → Nat → W × List host_decl
  /-- `find_lease (packet, share, 0)`. -/
  find_lease : W → packet → shared_network → W × Option lease
  /-- `find_host_for_network (&hp, &ip_address, share)`: the subnet (a
  handle), `hp` and `ip_address.iabuf` after the call. -/
  find_host_for_network : W → List host_decl → shared_network →
    W × Option Nat × List host_decl × List Nat
  /-- `allocate_lease (packet, pools, 0)`. -/
  allocate_lease : W → packet → Nat → W × Option lease
  /-- `execute_statements_in_scope (packet, &options, group, limiting_group)`:
  the option state after the call. -/
  execute_statements_in_scope : W → packet → option_state → Nat → Option Nat →
    W × option_state
  /-- `lookup_option (hash, code)`. -/
  lookup_option : List (Nat × Nat) → Nat → Option Nat
  /-- `evaluate_boolean_option_cache (packet, &options, oc)`: non-zero or zero. -/
  evaluate_boolean_option_cache : W → packet → option_state → Option Nat → W × Bool
  /-- `evaluate_option_cache (&d1, packet, &options, oc)`: non-zero or zero, and
  `d1` after the call. -/
  evaluate_option_cache : W → packet → option_state → Nat → W × Bool × data_string
  /-- `cons_options (packet, outgoing.raw, 0, &options, 0, 0, 0, 1)`: the length
  returned and the option area of the outgoing packet. -/
  cons_options : W → packet → dhcp_packet → option_state → W × Int × List Nat
  /-- `send_fallback`: the result. -/
  send_fallback : W → dhcp_packet → Int → in_addr → sockaddr_in → hardware → W × Int
  /-- `send_packet`: the result. -/
  send_packet : W → interface_info → packet → dhcp_packet → Int → in_addr → sockaddr_in →
    hardware → W × Int

/-- What a call of `bootp` leaves behind: `completed` is `false` when the call
dereferences a null pointer. -/
structure Outcome (W : Type) where
  completed : Bool
  world : W
  trace : List Event

/-- `memcpy (dst, src, n)` on arrays. -/
def memcpy (dst src : List Nat) (n : Nat) : List Nat := src.take n ++ dst.drop n

/-- `memset (&dst [k], 0, n)`. -/
def memset_zero (dst : List Nat) (k n : Nat) : List Nat :=
  dst.take k ++ List.replicate n 0 ++ dst.drop (k + n)

/-- The result of `memset (&raw, 0, sizeof raw)`. -/
def raw_zero (c : Consts) : dhcp_packet :=
  { op := 0, htype := 0, hlen := 0, hops := 0, xid := 0, secs := 0, flags := 0,
    ciaddr := [0, 0, 0, 0], yiaddr := [0, 0, 0, 0], siaddr := [0, 0, 0, 0],
    giaddr := [0, 0, 0, 0], chaddr := List.replicate c.CHADDR_LEN 0,
    sname := List.replicate c.DHCP_SNAME_LEN 0, file := List.replicate c.DHCP_FILE_LEN 0,
    options := List.replicate c.DHCP_OPTION_LEN 0 }

/-- `addr.s_addr != 0`. -/
def s_addr_nonzero (a : in_addr) : Bool := a.any (fun b => b != 0)

/-- `INADDR_BROADCAST`. -/
def INADDR_BROADCAST : in_addr := [255, 255, 255, 255]

/-- The loop of lines 105-110: the first host declaration of the chain without
a fixed address. -/
def first_without_fixed_addr : List host_decl → Option host_decl
  | [] => none
  | hp :: rest => if hp.fixed_addr = false then some hp else first_without_fixed_addr rest

/-- Lines 172-243 of `bootp`: build the reply in `raw`.  Returns the world,
`raw` and `outgoing.packet_length`; `l` is the lease. -/
def reply_packet {W : Type} (c : Consts) (env : Env W) (w : W)
    (packet : packet) (options : option_state) (l : lease) (ip_address : List Nat) :
    W × dhcp_packet × Int :=
  let raw0 := raw_zero c
  -- the option area and `outgoing.packet_length`
  let st1 : W × dhcp_packet × Int :=
    if packet.options_valid = false then
      (w, { raw0 with options := memcpy raw0.options packet.raw.options c.DHCP_OPTION_LEN },
        c.BOOTP_MIN_LEN)
    else
      let co := env.cons_options w packet raw0 options
      (co.1, { raw0 with options := co.2.2 },
        if co.2.1 < c.BOOTP_MIN_LEN then c.BOOTP_MIN_LEN else co.2.1)
  let packet_length := st1.2.2
  let raw1 : dhcp_packet :=
    { st1.2.1 with
      op := c.BOOTREPLY
      htype := packet.raw.htype
      hlen := packet.raw.hlen
      chaddr := memcpy st1.2.1.chaddr packet.raw.chaddr c.CHADDR_LEN
      hops := packet.raw.hops
      xid := packet.raw.xid
      secs := packet.raw.secs
      flags := 0
      ciaddr := packet.raw.ciaddr
      yiaddr := memcpy st1.2.1.yiaddr ip_address 4 }
  -- the next server
  let raw2 := { raw1 with siaddr := l.shared_network.interface.primary_address }
  let st2 : W × dhcp_packet :=
    match env.lookup_option options.dhcp_hash c.SV_NEXT_SERVER with
    | none => (st1.1, raw2)
    | some oc =>
      let ev := env.evaluate_option_cache st1.1 packet options oc
      if ev.2.1 then
        if 4 ≤ ev.2.2.len ∧ ev.2.2.data.isSome then
          (ev.1, { raw2 with siaddr := memcpy raw2.siaddr (ev.2.2.data.getD []) 4 })
        else (ev.1, raw2)
      else (ev.1, raw2)
  let raw3 := { st2.2 with giaddr := packet.raw.giaddr }
  -- the filename
  let st3 : W × dhcp_packet :=
    match env.lookup_option options.dhcp_hash c.SV_FILENAME with
    | none => (st2.1, raw3)
    | some oc =>
      let ev := env.evaluate_option_cache st2.1 packet options oc
      if ev.2.1 then
        let d1 := ev.2.2
        let f1 := memcpy raw3.file (d1.data.getD [])
          (if d1.len > c.DHCP_FILE_LEN then c.DHCP_FILE_LEN else d1.len)
        let f2 := if c.DHCP_FILE_LEN > d1.len then
          memset_zero f1 d1.len (c.DHCP_FILE_LEN - d1.len) else f1
        (ev.1, { raw3 with file := f2 })
      else (ev.1, raw3)
  -- the server name
  let st4 : W × dhcp_packet :=
    match env.lookup_option options.dhcp_hash c.SV_SERVER_NAME with
    | none => st3
    | some oc =>
      let ev := env.evaluate_option_cache st3.1 packet options oc
      if ev.2.1 then
        let d1 := ev.2.2
        let n1 := memcpy st3.2.sname (d1.data.getD [])
          (if d1.len > c.DHCP_SNAME_LEN then c.DHCP_SNAME_LEN else d1.len)
        let n2 := if c.DHCP_SNAME_LEN > d1.len then
          memset_zero n1 d1.len (c.DHCP_SNAME_LEN - d1.len) else n1
        (ev.1, { st3.2 with sname := n2 })
      else (ev.1, st3.2)
  (st4.1, st4.2, packet_length)

/-- Lines 245-294 of `bootp`: send the reply `raw` of length `packet_length`.
`tr` is the transcript so far. -/
def bootp_send {W : Type} (c : Consts) (env : Env W) (w : W) (tr : List Event)
    (packet : packet) (raw : dhcp_packet) (packet_length : Int) : Outcome W :=
  let hto : hardware :=
    { htype := packet.raw.htype, hlen := packet.raw.hlen,
      haddr := packet.raw.chaddr.take packet.raw.hlen }
  let src := packet.interface.primary_address
  let tr1 := tr ++ [Event.note "BOOTREPLY for %s to %s (%s) via %s"]
  if s_addr_nonzero raw.giaddr then
    let dest : sockaddr_in :=
      { sin_family := c.AF_INET, sin_port := c.local_port, sin_addr := raw.giaddr,
        sin_zero := List.replicate 8 0 }
    if c.USE_FALLBACK then
      let r := env.send_fallback w raw packet_length src dest hto
      let tr2 := tr1 ++ [Event.send_fallback raw packet_length src dest hto]
      if r.2 < 0 then
        { completed := true, world := r.1, trace := tr2 ++ [Event.warn "send_fallback: %m"] }
      else { completed := true, world := r.1, trace := tr2 }
    else
      let r := env.send_packet w packet.interface packet raw packet_length src dest hto
      let tr2 := tr1 ++ [Event.send_packet raw packet_length src dest hto]
      if r.2 < 0 then
        { completed := true, world := r.1, trace := tr2 ++ [Event.warn "send_packet: %m"] }
      else { completed := true, world := r.1, trace := tr2 }
  else
    let dest : sockaddr_in :=
      { sin_family := c.AF_INET, sin_port := c.remote_port, sin_addr := INADDR_BROADCAST,
        sin_zero := List.replicate 8 0 }
    let r := env.send_packet w packet.interface packet raw packet_length src dest hto
    let tr2 := tr1 ++ [Event.send_packet raw packet_length src dest hto]
    if r.2 < 0 then
      { completed := true, world := r.1, trace := tr2 ++ [Event.warn "send_packet: %m"] }
    else { completed := true, world := r.1, trace := tr2 }

/-- `bootp (packet)`, started in world `w`. -/
def bootp {W : Type} (c : Consts) (env : Env W) (w : W) (packet0 : packet) : Outcome W :=
  if packet0.raw.op ≠ c.BOOTREQUEST then
    { completed := true, world := w, trace := [] }
  else
    let tr0 := [Event.note "BOOTREQUEST from %s via %s"]
    let ln := env.locate_network w packet0
    match ln.2 with
    | none => { completed := true, world := ln.1, trace := tr0 }
    | some sn =>
      let packet : packet := { packet0 with shared_network := some sn }
      let fh := env.find_hosts_by_haddr ln.1 packet.raw.htype packet.raw.chaddr packet.raw.hlen
      let fl := env.find_lease fh.1 packet sn
      -- `ip_address` is not set when `hp` is null, and not read then
      let fn : W × Option Nat × List host_decl × List Nat :=
        if fh.2 ≠ [] then env.find_host_for_network fl.1 fh.2 sn
        else (fl.1, none, fh.2, [])
      let hp := fn.2.2.1
      let ip_address := fn.2.2.2
      match fn.2.1 with
      | none =>
        let host := first_without_fixed_addr hp
        match fl.2 with
        | some l => { completed := true, world := fn.1, trace := tr0 ++ [Event.ack_lease l] }
        | none =>
          let al := env.allocate_lease fn.1 packet sn.pools
          match al.2 with
          | some l =>
            { completed := true, world := al.1,
              trace := tr0 ++ [Event.ack_lease { l with host := host }] }
          | none =>
            { completed := true, world := al.1,
              trace := tr0 ++ [Event.note "No available leases for BOOTP client %s"] }
      | some _ =>
        let options0 : option_state := { dhcp_hash := [] }
        match fl.2 with
        | none => { completed := false, world := fn.1, trace := tr0 }
        | some l =>
          let e1 := env.execute_statements_in_scope fn.1 packet options0 l.subnet_group none
          match hp with
          | [] => { completed := false, world := e1.1, trace := tr0 }
          | h :: _ =>
            let e2 := env.execute_statements_in_scope e1.1 packet e1.2 h.group
              (some l.subnet_group)
            let options := e2.2
            -- Drop the request if it's not allowed for this client.
            let oc1 := env.lookup_option options.dhcp_hash c.SV_ALLOW_BOOTP
            let b1 := env.evaluate_boolean_option_cache e2.1 packet options oc1
            let tr1 := tr0 ++ [Event.eval_boolean oc1 b1.2]
            if b1.2 then
              { completed := true, world := b1.1,
                trace := tr1 ++ [Event.note "Ignoring BOOTP client %s"] }
            else
              let oc2 := env.lookup_option options.dhcp_hash c.SV_ALLOW_BOOTP
              let b2 := env.evaluate_boolean_option_cache b1.1 packet options oc2
              let tr2 := tr1 ++ [Event.eval_boolean oc2 b2.2]
              if b2.2 then
                match l.host with
                | none => { completed := false, world := b2.1, trace := tr2 }
                | some _ =>
                  { completed := true, world := b2.1,
                    trace := tr2 ++ [Event.note "Declining to boot client %s"] }
              else
                let rp := reply_packet c env b2.1 packet options l ip_address
                bootp_send c env rp.1 tr2 packet rp.2.1 rp.2.2

/-- A send of a packet, by either primitive. -/
def Event.is_send : Event → Bool
  | .send_packet _ _ _ _ _ => true
  | .send_fallback _ _ _ _ _ => true
  | _ => false

/-- The `op` field of the packet an event sends, if it sends one. -/
def Event.sent_op : Event → Option Nat
  | .send_packet raw _ _ _ _ => some raw.op
  | .send_fallback raw _ _ _ _ => some raw.op
  | _ => none

/-! ### A concrete server -/

/-- Constants with the values of `dhcpd.h`, built without `USE_FALLBACK`. -/
def demoConsts : Consts :=
  { BOOTREQUEST := 1, BOOTREPLY := 2, SV_ALLOW_BOOTP := 8, SV_NEXT_SERVER := 17,
    SV_FILENAME := 15, SV_SERVER_NAME := 16, DHCP_OPTION_LEN := 312, DHCP_FILE_LEN := 128,
    DHCP_SNAME_LEN := 64, BOOTP_MIN_LEN := 300, CHADDR_LEN := 16, AF_INET := 2,
    USE_FALLBACK := false, local_port := 67, remote_port := 68 }

/-- The interface the request arrives on. -/
def demoInterface : interface_info := { name := "eth0", primary_address := [10, 0, 0, 1] }

/-- The network of that interface. -/
def demoNet : shared_network := { name := "lan", pools := 1, interface := demoInterface }

/-- A host declaration with a fixed address. -/
def demoHost : host_decl := { name := "printer", fixed_addr := true, group := 2 }

/-- The lease of that host. -/
def demoLease : lease := { subnet_group := 1, host := some demoHost, shared_network := demoNet }

/-- A BOOTREQUEST broadcast by the client `02:00:00:00:00:05`. -/
def demoRequest : packet :=
  { raw :=
      { op := 1, htype := 1, hlen := 6, hops := 0, xid := 7, secs := 0, flags := 0,
        ciaddr := [0, 0, 0, 0], yiaddr := [0, 0, 0, 0], siaddr := [0, 0, 0, 0],
        giaddr := [0, 0, 0, 0], chaddr := [2, 0, 0, 0, 0, 5, 0, 0, 0, 0, 0, 0, 0, 0, 0, 0],
        sname := List.replicate 64 0, file := List.replicate 128 0,
        options := List.replicate 312 0 }
    options_valid := false
    interface := demoInterface
    shared_network := none }

/-- A server that knows `demoHost` with the fixed address 10.0.0.5 on `demoNet`
and whose configuration sets the `allow bootp` flag for it to `allow`. -/
def demoEnv (allow : Bool) : Env Unit :=
  { locate_network := fun w _ => (w, some demoNet)
    find_hosts_by_haddr := fun w _ _ _ => (w, [demoHost])
    find_lease := fun w _ _ => (w, some demoLease)
    find_host_for_network := fun w hp _ => (w, some 1, hp, [10, 0, 0, 5])
    allocate_lease := fun w _ _ => (w, none)
    execute_statements_in_scope := fun w _ o g _ =>
      (w, if g = 2 then { dhcp_hash := (8, 1) :: o.dhcp_hash } else o)
    lookup_option := fun h code => h.lookup code
    evaluate_boolean_option_cache := fun w _ _ oc =>
      (w, match oc with
        | some _ => allow
        | none => false)
    evaluate_option_cache := fun w _ _ _ => (w, false, { len := 0, data := none })
    cons_options := fun w _ raw _ => (w, 0, raw.options)
    send_fallback := fun w _ _ _ _ _ => (w, 0)
    send_packet := fun w _ _ _ _ _ _ _ => (w, 0) }

end Bootp

namespace ResUpdate

/-! ## The grouping loop and the shape of a run -/

variable {W : Type}

/-- The grouping loop once the zone group `z` exists: it logs one zone-cut
resolution per record visited; either every record is accepted and threaded
onto the group, or the loop stops at the first resolution that finds no server
or another zone, with `rcode = ns_r_notzone`. -/
theorem loop_some_spec (c : Consts) (env : Env W) (statp : res_state) :
    ∀ (rs : List ns_updrec) (s : Locals W) (z : zonegrp) (b : Bool) (s1 : Locals W),
    s.zptr = some z → loop c env statp rs s = (b, s1) →
    ∃ t, s1.trace = s.trace ++ t ∧
      ((b = false ∧ s1.rcode = s.rcode ∧
          s1.zptr = some { z with z_rrlist := z.z_rrlist ++ rs } ∧
          ∀ e ∈ t, fz_ok env.ns_samename z.z_origin z.z_class e) ∨
       (b = true ∧ s1.rcode = c.ns_r_notzone ∧
          (∃ z1, s1.zptr = some z1 ∧ z1.z_flags = z.z_flags) ∧
          ∃ t0 e, t = t0 ++ [e] ∧ (∀ e1 ∈ t0, fz_ok env.ns_samename z.z_origin z.z_class e1) ∧
            fz_bad env.ns_samename z.z_origin z.z_class e)) := by
  intro rs
  induction rs with
  | nil =>
    intro s z b s1 hz h
    simp only [loop, Prod.mk.injEq] at h
    obtain ⟨rfl, rfl⟩ := h
    exact ⟨[], by simp, Or.inl ⟨rfl, rfl, by simp [hz], by simp⟩⟩
  | cons r rest ih =>
    intro s z b s1 hz h
    simp only [loop, loop_body, hz] at h
    generalize hfz : env.res_findzonecut s.world statp r.r_dname r.r_class
        c.RES_EXHAUSTIVE c.MAXDNAME c.MAXNS = fz at h
    obtain ⟨w1, n, o, a⟩ := fz
    simp only at h
    by_cases h1 : n ≤ 0
    · simp only [h1, if_true, Prod.mk.injEq] at h
      obtain ⟨rfl, rfl⟩ := h
      refine ⟨[Event.findzonecut r.r_dname r.r_class n o a], rfl, Or.inr ⟨rfl, rfl, ⟨z, rfl, rfl⟩, [], _, rfl, by simp, ?_⟩⟩
      simp [fz_bad, h1]
    · simp only [h1, if_false] at h
      by_cases h2 : env.ns_samename o z.z_origin = 0 ∨ r.r_class ≠ z.z_class
      · simp only [h2, if_true, Prod.mk.injEq] at h
        obtain ⟨rfl, rfl⟩ := h
        refine ⟨[Event.findzonecut r.r_dname r.r_class n o a], rfl, Or.inr ⟨rfl, rfl, ⟨z, rfl, rfl⟩, [], _, rfl, by simp, ?_⟩⟩
        simp only [fz_bad]
        exact Or.inr ⟨not_le.mp h1, h2⟩
      · simp only [h2, if_false] at h
        obtain ⟨t, ht, hcase⟩ := ih _ { z with z_rrlist := z.z_rrlist ++ [r] } b s1 rfl h
        refine ⟨Event.findzonecut r.r_dname r.r_class n o a :: t, by simp [ht], ?_⟩
        have hok : fz_ok env.ns_samename z.z_origin z.z_class
            (Event.findzonecut r.r_dname r.r_class n o a) := by
          simp only [fz_ok]
          push_neg at h2
          exact ⟨not_le.mp h1, h2.1, h2.2⟩
        rcases hcase with ⟨hb, hr, hzp, hall⟩ | ⟨hb, hr, hzp, t0, e, hte, hall, hbad⟩
        · refine Or.inl ⟨hb, hr, by simp [hzp], ?_⟩
          intro e he
          rcases List.mem_cons.mp he with rfl | he
          · exact hok
          · exact hall e he
        · refine Or.inr ⟨hb, hr, hzp, Event.findzonecut r.r_dname r.r_class n o a :: t0, e, by simp [hte], ?_, hbad⟩
          intro e1 he
          rcases List.mem_cons.mp he with rfl | he
          · exact hok
          · exact hall e1 he

/-- The grouping loop from the start (`zptr == NULL`) on a non-empty list: the
four ways it can end. -/
theorem loop_none_spec (c : Consts) (env : Env W) (statp : res_state)
    (r : ns_updrec) (rest : List ns_updrec) (s : Locals W) (b : Bool) (s1 : Locals W)
    (hz : s.zptr = none) (h : loop c env statp (r :: rest) s = (b, s1)) :
    ∃ n o a, ∃ t, s1.trace = s.trace ++ Event.findzonecut r.r_dname r.r_class n o a :: t ∧
      ((b = true ∧ n ≤ 0 ∧ t = [] ∧ s1.rcode = c.ns_r_notzone ∧ s1.zptr = none) ∨
       (b = true ∧ 0 < n ∧ t = [Event.malloc false] ∧ s1.rcode = s.rcode ∧ s1.zptr = none) ∨
       (b = true ∧ 0 < n ∧ s1.rcode = c.ns_r_notzone ∧ (∃ z1, s1.zptr = some z1 ∧ z1.z_flags = 0) ∧
          ∃ t0 e, t = Event.malloc true :: t0 ++ [e] ∧
            (∀ e1 ∈ t0, fz_ok env.ns_samename o r.r_class e1) ∧
            fz_bad env.ns_samename o r.r_class e) ∨
       (b = false ∧ 0 < n ∧ s1.rcode = s.rcode ∧
          s1.zptr = some { z_origin := o, z_class := r.r_class, z_nsaddrs := a, z_nscount := n,
                           z_flags := 0, z_rrlist := r :: rest } ∧
          ∃ t0, t = Event.malloc true :: t0 ∧
            ∀ e1 ∈ t0, fz_ok env.ns_samename o r.r_class e1)) := by
  simp only [loop, loop_body, hz] at h
  generalize env.res_findzonecut s.world statp r.r_dname r.r_class
      c.RES_EXHAUSTIVE c.MAXDNAME c.MAXNS = fz at h
  obtain ⟨w1, n, o, a⟩ := fz
  refine ⟨n, o, a, ?_⟩
  simp only at h
  by_cases h1 : n ≤ 0
  · simp only [h1, if_true, Prod.mk.injEq] at h
    obtain ⟨rfl, rfl⟩ := h
    exact ⟨[], rfl, Or.inl ⟨rfl, h1, rfl, rfl, rfl⟩⟩
  · simp only [h1, if_false] at h
    generalize env.malloc w1 = m at h
    obtain ⟨w2, ok⟩ := m
    cases ok with
    | false =>
      simp only [if_true, Prod.mk.injEq] at h
      obtain ⟨rfl, rfl⟩ := h
      exact ⟨[Event.malloc false], by simp, Or.inr (Or.inl ⟨rfl, not_le.mp h1, rfl, rfl, rfl⟩)⟩
    | true =>
      simp only [Bool.true_eq_false, if_false, List.nil_append] at h
      obtain ⟨t, ht, hcase⟩ := loop_some_spec c env statp rest _ _ b s1 rfl h
      refine ⟨Event.malloc true :: t, by simp [ht], Or.inr (Or.inr ?_)⟩
      rcases hcase with ⟨hb, hr, hzp, hall⟩ | ⟨hb, hr, hzp, t0, e, hte, hall, hbad⟩
      · exact Or.inr ⟨hb, not_le.mp h1, hr, by simpa using hzp, t, rfl, hall⟩
      · exact Or.inl ⟨hb, not_le.mp h1, hr, hzp, t0, e, by simp [hte], hall, hbad⟩

/-- The shape of every run of `res_nupdate`: value returned, nameserver fields
and transcript, for the empty list and for each of the five ways a non-empty
list is processed (no server for the first record, `malloc` failure, a later
record rejected, header allocation failure, the full path through the send). -/
theorem res_nupdate_anatomy (c : Consts) (env : Env W) (w : W) (u : Indeterminate)
    (statp : res_state) (rs : List ns_updrec) (key : Option ns_tsig_key) :
    (rs = [] ∧ (res_nupdate c env w u statp rs key).ret = none ∧
      (res_nupdate c env w u statp rs key).statp = statp ∧
      (res_nupdate c env w u statp rs key).trace = []) ∨
    ∃ r rest n o a, rs = r :: rest ∧
      ((n ≤ 0 ∧ (res_nupdate c env w u statp rs key).ret = some c.ns_r_notzone ∧
          (res_nupdate c env w u statp rs key).statp = statp ∧
          (res_nupdate c env w u statp rs key).trace =
            [Event.findzonecut r.r_dname r.r_class n o a]) ∨
       (0 < n ∧ (res_nupdate c env w u statp rs key).ret = some u.rcode ∧
          (res_nupdate c env w u statp rs key).statp = statp ∧
          (res_nupdate c env w u statp rs key).trace =
            [Event.findzonecut r.r_dname r.r_class n o a, Event.malloc false]) ∨
       (0 < n ∧ ∃ t0 e, (∀ e1 ∈ t0, fz_ok env.ns_samename o r.r_class e1) ∧
          fz_bad env.ns_samename o r.r_class e ∧
          (res_nupdate c env w u statp rs key).ret = some c.ns_r_notzone ∧
          (res_nupdate c env w u statp rs key).statp = statp ∧
          (res_nupdate c env w u statp rs key).trace =
            Event.findzonecut r.r_dname r.r_class n o a :: Event.malloc true :: t0 ++
              [e, Event.free]) ∨
       (0 < n ∧ ∃ t0, (∀ e1 ∈ t0, fz_ok env.ns_samename o r.r_class e1) ∧
          (res_nupdate c env w u statp rs key).ret = some (-1) ∧
          (res_nupdate c env w u statp rs key).statp = statp ∧
          (res_nupdate c env w u statp rs key).trace =
            Event.findzonecut r.r_dname r.r_class n o a :: Event.malloc true :: t0 ++
              [Event.mkupdrec c.ns_s_zn o r.r_class c.ns_t_soa 0 none, Event.free]) ∨
       (0 < n ∧ ∃ t0 h mr pkt sr ans st1 st2, (∀ e1 ∈ t0, fz_ok env.ns_samename o r.r_class e1) ∧
          st1 = { nsaddr_list := (nsprom c statp.nsaddr_list a n).1, nscount := n } ∧
          st2 = { nsaddr_list := (nscopy st1.nsaddr_list
                    (nscopy u.nsaddrs statp.nsaddr_list statp.nscount).1 statp.nscount).1,
                  nscount := statp.nscount } ∧
          (res_nupdate c env w u statp rs key).ret = some (HEADER_rcode ans) ∧
          (res_nupdate c env w u statp rs key).statp = st2 ∧
          (res_nupdate c env w u statp rs key).trace =
            Event.findzonecut r.r_dname r.r_class n o a :: Event.malloc true :: t0 ++
              [Event.mkupdrec c.ns_s_zn o r.r_class c.ns_t_soa 0 (some h),
               Event.nmkupdate (h :: r :: rest) (2 * c.PACKETSZ) mr pkt,
               Event.ns_store st1,
               send_event c key st1 pkt (to_unsigned mr) sr ans,
               Event.ns_store st2,
               Event.freeupdrec (some h),
               Event.free])) := by
  cases rs with
  | nil => exact Or.inl ⟨rfl, by simp [res_nupdate, loop], by simp [res_nupdate, loop], by simp [res_nupdate, loop]⟩
  | cons r rest =>
    right
    unfold res_nupdate
    generalize hl : loop c env statp (r :: rest)
      { world := w, trace := [], zptr := none, rcode := u.rcode } = lr
    obtain ⟨b, s1⟩ := lr
    obtain ⟨n, o, a, t, ht, hcase⟩ := loop_none_spec c env statp r rest _ b s1 rfl hl
    refine ⟨r, rest, n, o, a, rfl, ?_⟩
    simp only [List.nil_append] at ht
    rcases hcase with ⟨rfl, hn, rfl, hr, hzp⟩ | ⟨rfl, hn, rfl, hr, hzp⟩ |
      ⟨rfl, hn, hr, ⟨z1, hzp, hfl⟩, t0, e, rfl, hall, hbad⟩ | ⟨rfl, hn, hr, hzp, t0, rfl, hall⟩
    · exact Or.inl ⟨hn, by simp [done, hzp, hr], by simp [done, hzp], by simp [done, hzp, ht]⟩
    · exact Or.inr (Or.inl ⟨hn, by simp [done, hzp, hr], by simp [done, hzp], by simp [done, hzp, ht]⟩)
    · refine Or.inr (Or.inr (Or.inl ⟨hn, t0, e, hall, hbad, by simp [done, hzp, hr], by simp [done, hzp], ?_⟩))
      simp [done, hzp, ht, hfl, ZG_F_ZONESECTADDED]
    · refine Or.inr (Or.inr (Or.inr ?_))
      simp only [hzp]
      generalize env.res_mkupdrec s1.world c.ns_s_zn o r.r_class c.ns_t_soa 0 = mk
      obtain ⟨w2, hd⟩ := mk
      cases hd with
      | none =>
        refine Or.inl ⟨hn, t0, hall, by simp [done, hzp], by simp [done, hzp], ?_⟩
        simp [done, hzp, ht, ZG_F_ZONESECTADDED]
      | some h =>
        right
        simp only
        generalize env.res_nmkupdate w2 statp (h :: r :: rest) (2 * c.PACKETSZ) = mu
        obtain ⟨w3, mr, pkt⟩ := mu
        simp only [Nat.not_lt_zero, if_false]
        cases key with
        | none =>
          simp only
          generalize env.res_nsend w3 _ pkt (to_unsigned mr) c.PACKETSZ = sd
          obtain ⟨w4, sr, ans⟩ := sd
          refine ⟨hn, t0, h, mr, pkt, sr, ans, _, _, hall, rfl, rfl, ?_, ?_, ?_⟩
          · simp [done]
          · simp [done, nsprom, nscopy]
          · simp [done, ht, ZG_F_ZONESECTADDED, send_event, nsprom, nscopy]
        | some k =>
          simp only
          generalize env.res_nsendsigned w3 _ pkt (to_unsigned mr) k c.PACKETSZ = sd
          obtain ⟨w4, sr, ans⟩ := sd
          refine ⟨hn, t0, h, mr, pkt, sr, ans, _, _, hall, rfl, rfl, ?_, ?_, ?_⟩
          · simp [done]
          · simp [done, nsprom, nscopy]
          · simp [done, ht, ZG_F_ZONESECTADDED, send_event, nsprom, nscopy]

/-! ## Arrays -/

/-- A loop of stores `d[j] = f j` keeps the length of the array. -/
theorem foldl_set_length {α : Type} (f : Nat → α) (l : List Nat) (d : List α) :
    (l.foldl (fun d j => d.set j (f j)) d).length = d.length := by
  induction l generalizing d with
  | nil => rfl
  | cons j l ih => simp [ih]

/-- Entry `i` after the loop `for (j = 0; j < k; j++) d[j] = f j`. -/
theorem foldl_set_getElem? {α : Type} (f : Nat → α) (k : Nat) (d : List α) (i : Nat) :
    ((List.range k).foldl (fun d j => d.set j (f j)) d)[i]? =
      if i < k then (if i < d.length then some (f i) else none) else d[i]? := by
  induction k with
  | zero => simp
  | succ k ih =>
    rw [List.range_succ, List.foldl_append]
    simp only [List.foldl_cons, List.foldl_nil]
    rw [List.getElem?_set, foldl_set_length, ih]
    by_cases hik : k = i
    · subst hik
      simp
    · have : (i < k + 1) = (i < k) := by
        apply propext
        omega
      simp [hik, this]

theorem nscopy_length (dst src : List sockaddr_in) (n : Int) :
    (nscopy dst src n).1.length = dst.length := by
  unfold nscopy
  exact foldl_set_length _ _ _

theorem nscopy_getElem? (dst src : List sockaddr_in) (n : Int) (i : Nat) :
    (nscopy dst src n).1[i]? =
      if i < n.toNat then (if i < dst.length then some (src.getD i sockaddr_in_zero) else none)
      else dst[i]? := by
  unfold nscopy
  exact foldl_set_getElem? _ _ _ _

theorem nsprom_step_eq (c : Consts) (src : List in_addr) :
    nsprom_step c src = fun d j => d.set j (endpoint c (src.getD j 0)) := by
  funext d j
  rfl

theorem nsprom_length (c : Consts) (dst : List sockaddr_in) (src : List in_addr) (n : Int) :
    (nsprom c dst src n).1.length = dst.length := by
  unfold nsprom
  rw [nsprom_step_eq]
  exact foldl_set_length _ _ _

theorem nsprom_getElem? (c : Consts) (dst : List sockaddr_in) (src : List in_addr) (n : Int)
    (i : Nat) :
    (nsprom c dst src n).1[i]? =
      if i < n.toNat then (if i < dst.length then some (endpoint c (src.getD i 0)) else none)
      else dst[i]? := by
  unfold nsprom
  rw [nsprom_step_eq]
  exact foldl_set_getElem? _ _ _ _

/-- Snapshot followed by restore gives back the first `n` entries, whatever
was stored in between into an array of the same length. -/
theorem restore_getElem? (garbage orig mid : List sockaddr_in) (n : Int) (i : Nat)
    (hlen : mid.length = orig.length) (hn1 : n ≤ orig.length) (hn2 : n ≤ garbage.length)
    (hi : (i : Int) < n) :
    (nscopy mid (nscopy garbage orig n).1 n).1[i]? = orig[i]? := by
  have hi1 : i < n.toNat := by omega
  have hi2 : i < orig.length := by omega
  have hi3 : i < garbage.length := by omega
  rw [nscopy_getElem?]
  simp only [hi1, if_true, hlen, hi2]
  have h1 := nscopy_getElem? garbage orig n i
  simp only [hi1, if_true, hi3] at h1
  rw [List.getD_eq_getElem?_getD, h1]
  simp [List.getD_eq_getElem?_getD, List.getElem?_eq_getElem hi2]

/-! ## Events of a run -/

/-- An accepted zone-cut resolution is none of the other kinds of event. -/
theorem fz_ok_kind {same : String → String → Int} {o0 : String} {c0 : Nat} {e : Event}
    (h : fz_ok same o0 c0 e) :
    e.is_send = false ∧ e.is_marshal = false ∧ e.is_header = false ∧ e.is_malloc = false ∧
      e.is_ns_store = false := by
  cases e <;> simp_all [fz_ok, Event.is_send, Event.is_marshal, Event.is_header,
    Event.is_malloc, Event.is_ns_store]

/-- A rejected zone-cut resolution is none of the other kinds of event. -/
theorem fz_bad_kind {same : String → String → Int} {o0 : String} {c0 : Nat} {e : Event}
    (h : fz_bad same o0 c0 e) :
    e.is_send = false ∧ e.is_marshal = false ∧ e.is_header = false ∧ e.is_malloc = false ∧
      e.is_ns_store = false := by
  cases e <;> simp_all [fz_bad, Event.is_send, Event.is_marshal, Event.is_header,
    Event.is_malloc, Event.is_ns_store]

theorem send_event_is_send (c : Consts) (key : Option ns_tsig_key) (st : res_state)
    (pkt : List Nat) (len : Nat) (sr : Int) (ans : List Nat) :
    (send_event c key st pkt len sr ans).is_send = true := by
  cases key <;> rfl

theorem send_event_inj (c : Consts) (key : Option ns_tsig_key) (st st1 : res_state)
    (pkt pkt1 : List Nat) (len len1 : Nat) (sr sr1 : Int) (ans ans1 : List Nat)
    (h : send_event c key st pkt len sr ans = send_event c key st1 pkt1 len1 sr1 ans1) :
    st = st1 ∧ pkt = pkt1 ∧ len = len1 ∧ sr = sr1 ∧ ans = ans1 := by
  cases key <;> simp_all [send_event]

/-- The sends of a run: none at all, or the single send of the full path. -/
theorem sends_of_run (c : Consts) (env : Env W) (w : W) (u : Indeterminate)
    (statp : res_state) (rs : List ns_updrec) (key : Option ns_tsig_key) :
    ((res_nupdate c env w u statp rs key).trace.filter Event.is_send = [] ∧
      (res_nupdate c env w u statp rs key).trace.filter Event.is_ns_store = []) ∨
    ∃ r rest n o a h mr pkt sr ans,
      rs = r :: rest ∧
      (res_nupdate c env w u statp rs key).trace.head? =
        some (Event.findzonecut r.r_dname r.r_class n o a) ∧
      (res_nupdate c env w u statp rs key).ret = some (HEADER_rcode ans) ∧
      (res_nupdate c env w u statp rs key).trace.filter Event.is_marshal =
        [Event.nmkupdate (h :: r :: rest) (2 * c.PACKETSZ) mr pkt] ∧
      (res_nupdate c env w u statp rs key).trace.filter Event.is_send =
        [send_event c key
          { nsaddr_list := (nsprom c statp.nsaddr_list a n).1, nscount := n }
          pkt (to_unsigned mr) sr ans] := by
  rcases res_nupdate_anatomy c env w u statp rs key with
    ⟨_, _, _, htr⟩ | ⟨r, rest, n1, o1, a1, hrs, h⟩
  · left
    simp [htr]
  · rcases h with ⟨_, hret, hst, htr⟩ | ⟨hn1, _, _, htr⟩ |
      ⟨hn1, t0, e, hall, hbad, hret, hst, htr⟩ |
      ⟨hn1, t0, hall, _, _, htr⟩ |
      ⟨hn1, t0, h, mr, pkt, sr, ans, st1, st2, hall, hst1, _, hret, _, htr⟩
    · left
      simp [htr, Event.is_send, Event.is_ns_store]
    · left
      simp [htr, Event.is_send, Event.is_ns_store]
    · left
      have hb := fz_bad_kind hbad
      have h1 : t0.filter Event.is_send = [] :=
        List.filter_eq_nil_iff.mpr fun e he => by simp [(fz_ok_kind (hall e he)).1]
      have h2 : t0.filter Event.is_ns_store = [] :=
        List.filter_eq_nil_iff.mpr fun e he => by simp [(fz_ok_kind (hall e he)).2.2.2.2]
      simp [htr, List.filter_cons, List.filter_append, h1, h2, hb.1, hb.2.2.2.2]
      exact ⟨rfl, rfl⟩
    · left
      have h1 : t0.filter Event.is_send = [] :=
        List.filter_eq_nil_iff.mpr fun e he => by simp [(fz_ok_kind (hall e he)).1]
      have h2 : t0.filter Event.is_ns_store = [] :=
        List.filter_eq_nil_iff.mpr fun e he => by simp [(fz_ok_kind (hall e he)).2.2.2.2]
      simp [htr, List.filter_cons, List.filter_append, h1, h2]
      exact ⟨rfl, rfl⟩
    · right
      have h1 : t0.filter Event.is_send = [] :=
        List.filter_eq_nil_iff.mpr fun e he => by simp [(fz_ok_kind (hall e he)).1]
      have h2 : t0.filter Event.is_marshal = [] :=
        List.filter_eq_nil_iff.mpr fun e he => by simp [(fz_ok_kind (hall e he)).2.1]
      refine ⟨r, rest, n1, o1, a1, h, mr, pkt, sr, ans, hrs, by simp [htr], hret, ?_, ?_⟩
      · simp [htr, List.filter_cons, List.filter_append, h2, Event.is_marshal]
        cases key <;> simp [send_event]
      · cases key <;>
          simp [htr, List.filter_cons, List.filter_append, h1, hst1, Event.is_send, send_event]

/-- The rcode field is a four-bit value. -/
theorem HEADER_rcode_range (ans : List Nat) : 0 ≤ HEADER_rcode ans ∧ HEADER_rcode ans < 16 := by
  unfold HEADER_rcode
  constructor
  · exact Int.ofNat_nonneg _
  · have : ans.getD 3 0 % 16 < 16 := Nat.mod_lt _ (by decide)
    exact_mod_cast this

/-! ## C1: snapshot and restore -/

/-- C1: a handle with one active nameserver in an array of three, and a zone
with two servers: the call returns with the second array entry overwritten. -/
theorem C1_whole_array_not_restored :
    demoStatp.nsaddr_list = [demoEp 1, demoEp 2, demoEp 3] ∧
    (res_nupdate demoConsts (demoEnv true true 40 30 ansNoError) () (demoStack 0)
        demoStatp [recA] none).statp.nsaddr_list = [demoEp 1, demoEp 167772162, demoEp 3] ∧
    ¬ ((res_nupdate demoConsts (demoEnv true true 40 30 ansNoError) () (demoStack 0)
          demoStatp [recA] none).statp.nsaddr_list = demoStatp.nsaddr_list ∧
       (res_nupdate demoConsts (demoEnv true true 40 30 ansNoError) () (demoStack 0)
          demoStatp [recA] none).statp.nscount = demoStatp.nscount) := by
  decide

/-- C1 (as amended): after `res_nupdate` returns, whatever the primitives did,
`nscount` and the active part of `nsaddr_list` (the first `nscount` entries)
equal their values before the call, and the array keeps its length. -/
theorem C1_active_nameservers_restored (c : Consts) (env : Env W) (w : W) (u : Indeterminate)
    (statp : res_state) (rs : List ns_updrec) (key : Option ns_tsig_key)
    (hlen : statp.nsaddr_list.length = c.MAXNS) (hstack : u.nsaddrs.length = c.MAXNS)
    (hcount : statp.nscount ≤ c.MAXNS) :
    (res_nupdate c env w u statp rs key).statp.nscount = statp.nscount ∧
    (res_nupdate c env w u statp rs key).statp.nsaddr_list.length = statp.nsaddr_list.length ∧
    ∀ i : Nat, (i : Int) < statp.nscount →
      (res_nupdate c env w u statp rs key).statp.nsaddr_list[i]? = statp.nsaddr_list[i]? := by
  rcases res_nupdate_anatomy c env w u statp rs key with
    ⟨_, _, hst, _⟩ | ⟨r, rest, n, o, a, _, h⟩
  · simp [hst]
  · rcases h with ⟨_, _, hst, _⟩ | ⟨_, _, hst, _⟩ | ⟨_, _, _, _, _, _, hst, _⟩ |
      ⟨_, _, _, _, hst, _⟩ | ⟨_, t0, h, mr, pkt, sr, ans, st1, st2, _, h1, h2, _, hst, _⟩
    · simp [hst]
    · simp [hst]
    · simp [hst]
    · simp [hst]
    · rw [hst, h2]
      refine ⟨rfl, ?_, ?_⟩
      · simp [nscopy_length, h1, nsprom_length]
      · intro i hi
        apply restore_getElem?
        · simp [h1, nsprom_length]
        · omega
        · omega
        · exact hi

theorem C1_active_nameservers_restored_witness :
    (res_nupdate demoConsts (demoEnv true true 40 30 ansNoError) () (demoStack 0)
        demoStatp [recA] none).statp.nscount = 1 ∧
    (res_nupdate demoConsts (demoEnv true true 40 30 ansNoError) () (demoStack 0)
        demoStatp [recA] none).statp.nsaddr_list[0]? = some (demoEp 1) :=
  have h := C1_active_nameservers_restored demoConsts (demoEnv true true 40 30 ansNoError) ()
    (demoStack 0) demoStatp [recA] none (by decide) (by decide) (by decide)
  ⟨h.1, h.2.2 0 (by decide)⟩

/-! ## C2: marshal failure -/

/-- C2: the marshal primitive returns -1; `res_nupdate` stores the zone
servers into the handle and calls `res_nsend` with length 4294967295. -/
theorem C2_marshal_failure_still_sends :
    (res_nupdate demoConsts (demoEnv true true (-1) 30 ansNoError) () (demoStack 0)
        demoStatp [recA] none).trace =
      [Event.findzonecut "host.example.com" 1 2 "example.com" [167772161, 167772162, 0],
       Event.malloc true,
       Event.mkupdrec 0 "example.com" 1 6 0 (some ⟨0, "example.com", 1, 6, 0⟩),
       Event.nmkupdate [⟨0, "example.com", 1, 6, 0⟩, recA] 1024 (-1) [6, 1],
       Event.ns_store ⟨[demoEp 167772161, demoEp 167772162, demoEp 3], 2⟩,
       Event.nsend ⟨[demoEp 167772161, demoEp 167772162, demoEp 3], 2⟩ [6, 1] 4294967295 512
         30 ansNoError,
       Event.ns_store ⟨[demoEp 1, demoEp 167772162, demoEp 3], 1⟩,
       Event.freeupdrec (some ⟨0, "example.com", 1, 6, 0⟩),
       Event.free] := by
  decide

/-! ## C3: send failure -/

/-- C3: the authenticated send returns -1 and leaves rcode 5 in the answer
buffer; `res_nupdate` returns 5, not -1. -/
theorem C3_send_failure_returns_answer_rcode :
    Event.nsendsigned ⟨[demoEp 167772161, demoEp 167772162, demoEp 3], 2⟩ [6, 1] 40 demoKey 512
        (-1) ansRefused ∈
      (res_nupdate demoConsts (demoEnv true true 40 (-1) ansRefused) () (demoStack 0)
        demoStatp [recA] (some demoKey)).trace ∧
    (res_nupdate demoConsts (demoEnv true true 40 (-1) ansRefused) () (demoStack 0)
        demoStatp [recA] (some demoKey)).ret = some 5 := by
  decide

/-! ## C4: records of different zones -/

/-- In a group of origin `z.z_origin` and class `z.z_class`, a list with a
record of another zone ends the grouping loop with `ns_r_notzone`. -/
theorem loop_some_mismatch (c : Consts) (env : Env W) (statp : res_state) :
    ∀ (rs : List ns_updrec) (s : Locals W) (z : zonegrp), s.zptr = some z →
    later_mismatch c env statp z.z_origin z.z_class s.world rs = true →
    (loop c env statp rs s).1 = true ∧ (loop c env statp rs s).2.rcode = c.ns_r_notzone := by
  intro rs
  induction rs with
  | nil =>
    intro s z _ h
    simp [later_mismatch] at h
  | cons r rest ih =>
    intro s z hz h
    simp only [later_mismatch] at h
    simp only [loop, loop_body, hz]
    generalize env.res_findzonecut s.world statp r.r_dname r.r_class
        c.RES_EXHAUSTIVE c.MAXDNAME c.MAXNS = fz at h ⊢
    obtain ⟨w1, n, o, a⟩ := fz
    simp only at h ⊢
    by_cases h1 : n ≤ 0
    · simp [h1]
    · simp only [h1, if_false]
      by_cases h2 : env.ns_samename o z.z_origin = 0 ∨ r.r_class ≠ z.z_class
      · simp [h2]
      · simp only [h2, if_false]
        have h3 : later_mismatch c env statp z.z_origin z.z_class w1 rest = true := by
          push_neg at h2
          simpa [h2.1, h2.2] using h
        exact ih _ { z with z_rrlist := z.z_rrlist ++ [r] } rfl h3

/-- From the start, with the zone group allocated, a list with a later record
of another zone than the first ends the grouping loop with `ns_r_notzone`. -/
theorem loop_init_mismatch (c : Consts) (env : Env W) (statp : res_state) (w : W) (g : Int)
    (r0 : ns_updrec) (rest : List ns_updrec)
    (hmalloc : (env.malloc (env.res_findzonecut w statp r0.r_dname r0.r_class
      c.RES_EXHAUSTIVE c.MAXDNAME c.MAXNS).1).2 = true)
    (hmis : later_mismatch c env statp
      (env.res_findzonecut w statp r0.r_dname r0.r_class
        c.RES_EXHAUSTIVE c.MAXDNAME c.MAXNS).2.2.1
      r0.r_class
      (env.malloc (env.res_findzonecut w statp r0.r_dname r0.r_class
        c.RES_EXHAUSTIVE c.MAXDNAME c.MAXNS).1).1
      rest = true) :
    (loop c env statp (r0 :: rest) { world := w, trace := [], zptr := none, rcode := g }).1 =
      true ∧
    (loop c env statp (r0 :: rest) { world := w, trace := [], zptr := none, rcode := g }).2.rcode =
      c.ns_r_notzone := by
  simp only [loop, loop_body]
  generalize env.res_findzonecut w statp r0.r_dname r0.r_class
      c.RES_EXHAUSTIVE c.MAXDNAME c.MAXNS = fz at hmalloc hmis ⊢
  obtain ⟨w1, n, o, a⟩ := fz
  simp only at hmalloc hmis ⊢
  by_cases h1 : n ≤ 0
  · simp [h1]
  · simp only [h1, if_false, hmalloc, Bool.true_eq_false]
    exact loop_some_mismatch c env statp rest _ _ rfl hmis

/-- C4: the zone group is not allocated (`malloc` returns `NULL` after the
first record is resolved); the list holds an A record of `example.com` and a
PTR record of `10.in-addr.arpa`, each with at least one server; `res_nupdate`
returns what `rcode` held at entry (here 0), not `ns_r_notzone`. -/
theorem C4_malloc_failure_not_notzone :
    all_have_servers demoConsts (demoEnv false true 40 30 ansNoError) demoStatp ()
      [recA, recPTR] = true ∧
    later_mismatch demoConsts (demoEnv false true 40 30 ansNoError) demoStatp
      "example.com" recA.r_class () [recPTR] = true ∧
    (res_nupdate demoConsts (demoEnv false true 40 30 ansNoError) () (demoStack 0)
      demoStatp [recA, recPTR] none).ret = some 0 ∧
    (res_nupdate demoConsts (demoEnv false true 40 30 ansNoError) () (demoStack 0)
      demoStatp [recA, recPTR] none).ret ≠ some demoConsts.ns_r_notzone := by
  decide

/-- C4 (as amended): for every list `r0 :: rest` in which some record of
`rest` resolves to an origin that `ns_samename` reports different from the
origin the first record resolved to, or has a class other than the first
record's, and for which the zone group is allocated (`malloc` does not return
`NULL`), `res_nupdate` returns `ns_r_notzone`, calls neither the marshal nor a
send primitive, and leaves the nameserver fields of the handle untouched. -/
theorem C4_notzone_on_zone_mismatch (c : Consts) (env : Env W) (w : W) (u : Indeterminate)
    (statp : res_state) (r0 : ns_updrec) (rest : List ns_updrec) (key : Option ns_tsig_key)
    (hmalloc : (env.malloc (env.res_findzonecut w statp r0.r_dname r0.r_class
      c.RES_EXHAUSTIVE c.MAXDNAME c.MAXNS).1).2 = true)
    (hmis : later_mismatch c env statp
      (env.res_findzonecut w statp r0.r_dname r0.r_class
        c.RES_EXHAUSTIVE c.MAXDNAME c.MAXNS).2.2.1
      r0.r_class
      (env.malloc (env.res_findzonecut w statp r0.r_dname r0.r_class
        c.RES_EXHAUSTIVE c.MAXDNAME c.MAXNS).1).1
      rest = true) :
    (res_nupdate c env w u statp (r0 :: rest) key).ret = some c.ns_r_notzone ∧
    (∀ e ∈ (res_nupdate c env w u statp (r0 :: rest) key).trace,
      e.is_marshal = false ∧ e.is_send = false ∧ e.is_ns_store = false) ∧
    (res_nupdate c env w u statp (r0 :: rest) key).statp = statp := by
  have hm := loop_init_mismatch c env statp w u.rcode r0 rest hmalloc hmis
  unfold res_nupdate
  generalize hl : loop c env statp (r0 :: rest)
    { world := w, trace := [], zptr := none, rcode := u.rcode } = lr at hm
  obtain ⟨b, s1⟩ := lr
  obtain ⟨hb, hr⟩ := hm
  simp only at hb hr
  subst hb
  obtain ⟨n, o, a, t, ht, hcase⟩ := loop_none_spec c env statp r0 rest _ true s1 rfl hl
  simp only [List.nil_append] at ht
  rcases hcase with ⟨_, _, rfl, _, hzp⟩ | ⟨_, _, rfl, _, hzp⟩ |
    ⟨_, _, _, ⟨z1, hzp, hfl⟩, t0, e, rfl, hall, hbad⟩ | ⟨hb, _⟩
  · refine ⟨by simp [done, hzp, hr], ?_, by simp [done, hzp]⟩
    simp only [done, hzp, ht]
    intro e he
    simp only [List.mem_singleton] at he
    subst he
    exact ⟨rfl, rfl, rfl⟩
  · refine ⟨by simp [done, hzp, hr], ?_, by simp [done, hzp]⟩
    simp only [done, hzp, ht]
    intro e he
    simp only [List.mem_cons, List.mem_singleton, List.not_mem_nil, or_false] at he
    rcases he with rfl | rfl <;> exact ⟨rfl, rfl, rfl⟩
  · refine ⟨by simp [done, hzp, hr], ?_, by simp [done, hzp]⟩
    have htr : (done s1 statp).trace =
        Event.findzonecut r0.r_dname r0.r_class n o a :: Event.malloc true :: t0 ++
          [e, Event.free] := by
      simp [done, hzp, ht, hfl, ZG_F_ZONESECTADDED]
    rw [htr]
    intro e1 he1
    simp only [List.mem_cons, List.mem_append, List.mem_singleton, List.not_mem_nil,
      or_false] at he1
    rcases he1 with (rfl | rfl | he1) | rfl | rfl
    · exact ⟨rfl, rfl, rfl⟩
    · exact ⟨rfl, rfl, rfl⟩
    · have hk := fz_ok_kind (hall e1 he1)
      exact ⟨hk.2.1, hk.1, hk.2.2.2.2⟩
    · have hk := fz_bad_kind hbad
      exact ⟨hk.2.1, hk.1, hk.2.2.2.2⟩
    · exact ⟨rfl, rfl, rfl⟩
  · simp at hb

theorem C4_notzone_on_zone_mismatch_witness :
    (res_nupdate demoConsts (demoEnv true true 40 30 ansNoError) () (demoStack 0)
        demoStatp [recA, recA2, recPTR] none).trace =
      [Event.findzonecut "host.example.com" 1 2 "example.com" [167772161, 167772162, 0],
       Event.malloc true,
       Event.findzonecut "www.Example.COM" 1 2 "Example.COM" [167772161, 167772162, 0],
       Event.findzonecut "1.0.0.10.in-addr.arpa" 1 1 "10.in-addr.arpa" [167772163, 0, 0],
       Event.free] ∧
    (res_nupdate demoConsts (demoEnv true true 40 30 ansNoError) () (demoStack 0)
        demoStatp [recA, recA2, recPTR] none).ret = some 10 ∧
    (res_nupdate demoConsts (demoEnv true true 40 30 ansNoError) () (demoStack 0)
        demoStatp [recA, recA2, recPTR] none).statp = demoStatp :=
  have h := C4_notzone_on_zone_mismatch demoConsts (demoEnv true true 40 30 ansNoError) ()
    (demoStack 0) demoStatp recA [recA2, recPTR] none (by decide) (by decide)
  ⟨by decide, h.1, h.2.2⟩

/-! ## C5: no authoritative server -/

/-- C5: when `res_findzonecut` returns a server count of zero or less for a
record (all earlier records having been grouped), `res_nupdate` returns
`ns_r_notzone` without creating the header record, marshalling, sending or
storing to the nameserver fields of the handle; when that record is the first
one, `malloc` is not called either. -/
theorem C5_notzone_on_no_server (c : Consts) (env : Env W) (w : W) (u : Indeterminate)
    (statp : res_state) (rs : List ns_updrec) (key : Option ns_tsig_key)
    (d : String) (cl : Nat) (n : Int) (o : String) (a : List in_addr)
    (hmem : Event.findzonecut d cl n o a ∈ (res_nupdate c env w u statp rs key).trace)
    (hn : n ≤ 0) :
    (res_nupdate c env w u statp rs key).ret = some c.ns_r_notzone ∧
    (∀ e ∈ (res_nupdate c env w u statp rs key).trace,
      e.is_header = false ∧ e.is_marshal = false ∧ e.is_send = false ∧
        e.is_ns_store = false) ∧
    (res_nupdate c env w u statp rs key).statp = statp ∧
    ((res_nupdate c env w u statp rs key).trace.head? = some (Event.findzonecut d cl n o a) →
      ∀ e ∈ (res_nupdate c env w u statp rs key).trace, e.is_malloc = false) := by
  rcases res_nupdate_anatomy c env w u statp rs key with
    ⟨_, _, _, htr⟩ | ⟨r, rest, n1, o1, a1, _, h⟩
  · rw [htr] at hmem
    simp at hmem
  · rcases h with ⟨_, hret, hst, htr⟩ | ⟨hn1, _, _, htr⟩ |
      ⟨hn1, t0, e, hall, hbad, hret, hst, htr⟩ |
      ⟨hn1, t0, hall, _, _, htr⟩ |
      ⟨hn1, t0, h, mr, pkt, sr, ans, st1, st2, hall, _, _, _, _, htr⟩
    · refine ⟨hret, ?_, hst, ?_⟩ <;> rw [htr] <;>
        simp [Event.is_header, Event.is_marshal, Event.is_send, Event.is_ns_store,
          Event.is_malloc]
    · exfalso
      rw [htr] at hmem
      simp only [List.mem_cons, Event.findzonecut.injEq, reduceCtorEq, List.not_mem_nil,
        or_false] at hmem
      omega
    · refine ⟨hret, ?_, hst, ?_⟩
      · rw [htr]
        intro e1 he1
        simp only [List.mem_cons, List.mem_append, List.mem_singleton, List.not_mem_nil,
          or_false] at he1
        rcases he1 with (rfl | rfl | he1) | rfl | rfl
        · exact ⟨rfl, rfl, rfl, rfl⟩
        · exact ⟨rfl, rfl, rfl, rfl⟩
        · have hk := fz_ok_kind (hall e1 he1)
          exact ⟨hk.2.2.1, hk.2.1, hk.1, hk.2.2.2.2⟩
        · have hk := fz_bad_kind hbad
          exact ⟨hk.2.2.1, hk.2.1, hk.1, hk.2.2.2.2⟩
        · exact ⟨rfl, rfl, rfl, rfl⟩
      · intro hhead
        exfalso
        rw [htr] at hhead
        simp only [List.cons_append, List.head?_cons, Option.some.injEq,
          Event.findzonecut.injEq] at hhead
        omega
    · exfalso
      rw [htr] at hmem
      simp only [List.cons_append, List.mem_cons, List.mem_append, List.mem_singleton,
        List.not_mem_nil, or_false, false_or, reduceCtorEq, Event.findzonecut.injEq] at hmem
      rcases hmem with h1 | h1
      · omega
      · have hok := hall _ h1
        simp only [fz_ok] at hok
        omega
    · exfalso
      rw [htr] at hmem
      have hmem1 : (d = r.r_dname ∧ cl = r.r_class ∧ n = n1 ∧ o = o1 ∧ a = a1) ∨
          Event.findzonecut d cl n o a ∈ t0 := by
        cases key <;> simpa [send_event] using hmem
      rcases hmem1 with h1 | h1
      · omega
      · have hok := hall _ h1
        simp only [fz_ok] at hok
        omega

theorem C5_notzone_on_no_server_witness :
    (res_nupdate demoConsts (demoEnv true true 40 30 ansNoError) () (demoStack 0)
        demoStatp [recNone, recA] none).trace =
      [Event.findzonecut "nowhere.invalid" 1 0 "" [0, 0, 0]] ∧
    (res_nupdate demoConsts (demoEnv true true 40 30 ansNoError) () (demoStack 0)
        demoStatp [recNone, recA] none).ret = some 10 ∧
    (res_nupdate demoConsts (demoEnv true true 40 30 ansNoError) () (demoStack 0)
        demoStatp [recNone, recA] none).statp = demoStatp :=
  have h := C5_notzone_on_no_server demoConsts (demoEnv true true 40 30 ansNoError) ()
    (demoStack 0) demoStatp [recNone, recA] none "nowhere.invalid" 1 0 "" [0, 0, 0]
    (by decide) (by decide)
  ⟨by decide, h.1, h.2.2.1⟩

/-! ## C6: server status -/

/-- C6: when the message was built (the marshal primitive returned a length)
and the send primitive returned a response length, `res_nupdate` returns the
rcode field of the header in the answer buffer, whatever status it holds; the
value is never the local failure code -1. -/
theorem C6_server_status_passed_through (c : Consts) (env : Env W) (w : W)
    (u : Indeterminate) (statp : res_state) (rs : List ns_updrec) (key : Option ns_tsig_key)
    (rr : List ns_updrec) (bl : Nat) (mr : Int) (pkt : List Nat)
    (st : res_state) (pkt1 : List Nat) (len : Nat) (sr : Int) (ans : List Nat)
    (hbuilt : Event.nmkupdate rr bl mr pkt ∈ (res_nupdate c env w u statp rs key).trace)
    (hmr : 0 ≤ mr)
    (hsent : send_event c key st pkt1 len sr ans ∈ (res_nupdate c env w u statp rs key).trace)
    (hsr : 0 ≤ sr) :
    (res_nupdate c env w u statp rs key).ret = some (HEADER_rcode ans) ∧
    (res_nupdate c env w u statp rs key).ret ≠ some (-1) := by
  have _ := hbuilt
  have _ := hmr
  have _ := hsr
  have hret : (res_nupdate c env w u statp rs key).ret = some (HEADER_rcode ans) := by
    have hf : send_event c key st pkt1 len sr ans ∈
        (res_nupdate c env w u statp rs key).trace.filter Event.is_send :=
      List.mem_filter.mpr ⟨hsent, send_event_is_send c key st pkt1 len sr ans⟩
    rcases sends_of_run c env w u statp rs key with ⟨h0, _⟩ |
      ⟨r, rest, n, o, a, h, mr1, pkt2, sr1, ans1, _, _, hret, _, hs⟩
    · rw [h0] at hf
      simp at hf
    · rw [hs, List.mem_singleton] at hf
      obtain ⟨_, _, _, _, hans⟩ := send_event_inj c key _ _ _ _ _ _ _ _ _ _ hf
      rw [hret, hans]
  refine ⟨hret, ?_⟩
  rw [hret]
  intro h
  have h1 := (HEADER_rcode_range ans).1
  have h2 : HEADER_rcode ans = -1 := Option.some.inj h
  omega

theorem C6_server_status_passed_through_witness :
    (res_nupdate demoConsts (demoEnv true true 40 30 ansRefused) () (demoStack 0)
        demoStatp [recA, recA2] (some demoKey)).ret = some 5 :=
  (C6_server_status_passed_through demoConsts (demoEnv true true 40 30 ansRefused) ()
    (demoStack 0) demoStatp [recA, recA2] (some demoKey)
    [⟨0, "example.com", 1, 6, 0⟩, recA, recA2] 1024 40 [6, 1, 1]
    ⟨[demoEp 167772161, demoEp 167772162, demoEp 3], 2⟩ [6, 1, 1] 40 30 ansRefused
    (by decide) (by decide) (by decide) (by decide)).1

/-! ## C7: the marshalled sequence -/

/-- C7: for a non-empty list whose records all resolve to at least one server
and to the origin and class of the first record, with both allocations
succeeding, `res_nupdate` calls `res_nmkupdate` once, on the sequence
`h :: rs`: the record `h` that `res_mkupdrec` returned for section `ns_s_zn`,
the group's origin, the group's class, type `ns_t_soa` and ttl 0, followed by
all input records in their order. -/
theorem C7_marshalled_sequence (c : Consts) (env : Env W) (w : W) (u : Indeterminate)
    (statp : res_state) (rs : List ns_updrec) (key : Option ns_tsig_key)
    (hne : rs ≠ [])
    (hcount : ∀ d cl n o a,
      Event.findzonecut d cl n o a ∈ (res_nupdate c env w u statp rs key).trace → 0 < n)
    (hsame : ∀ d0 c0 n0 o0 a0 d cl n o a,
      (res_nupdate c env w u statp rs key).trace.head? =
        some (Event.findzonecut d0 c0 n0 o0 a0) →
      Event.findzonecut d cl n o a ∈ (res_nupdate c env w u statp rs key).trace.tail →
      env.ns_samename o o0 ≠ 0 ∧ cl = c0)
    (hmalloc : Event.malloc false ∉ (res_nupdate c env w u statp rs key).trace)
    (hhdr : ∀ s d cl t ttl,
      Event.mkupdrec s d cl t ttl none ∉ (res_nupdate c env w u statp rs key).trace) :
    ∃ r rest n0 o0 a0 h mr pkt,
      rs = r :: rest ∧
      (res_nupdate c env w u statp rs key).trace.head? =
        some (Event.findzonecut r.r_dname r.r_class n0 o0 a0) ∧
      (res_nupdate c env w u statp rs key).trace.filter Event.is_header =
        [Event.mkupdrec c.ns_s_zn o0 r.r_class c.ns_t_soa 0 (some h)] ∧
      (res_nupdate c env w u statp rs key).trace.filter Event.is_marshal =
        [Event.nmkupdate (h :: rs) (2 * c.PACKETSZ) mr pkt] := by
  rcases res_nupdate_anatomy c env w u statp rs key with
    ⟨hnil, _⟩ | ⟨r, rest, n1, o1, a1, hrs, h⟩
  · exact absurd hnil hne
  · rcases h with ⟨hn1, _, _, htr⟩ | ⟨hn1, _, _, htr⟩ |
      ⟨hn1, t0, e, hall, hbad, _, _, htr⟩ |
      ⟨hn1, t0, hall, _, _, htr⟩ |
      ⟨hn1, t0, h, mr, pkt, sr, ans, st1, st2, hall, _, _, _, _, htr⟩
    · exfalso
      have := hcount r.r_dname r.r_class n1 o1 a1 (by simp [htr])
      omega
    · exfalso
      exact hmalloc (by simp [htr])
    · exfalso
      cases e with
      | findzonecut d cl n o a =>
        have h1 := hcount d cl n o a (by simp [htr])
        have h2 := hsame r.r_dname r.r_class n1 o1 a1 d cl n o a (by simp [htr])
          (by simp [htr])
        simp only [fz_bad] at hbad
        rcases hbad with hb | ⟨_, hb | hb⟩
        · omega
        · exact h2.1 hb
        · exact hb h2.2
      | _ => simp [fz_bad] at hbad
    · exfalso
      exact hhdr c.ns_s_zn o1 r.r_class c.ns_t_soa 0 (by simp [htr])
    · have h1 : t0.filter Event.is_header = [] :=
        List.filter_eq_nil_iff.mpr fun e he => by simp [(fz_ok_kind (hall e he)).2.2.1]
      have h2 : t0.filter Event.is_marshal = [] :=
        List.filter_eq_nil_iff.mpr fun e he => by simp [(fz_ok_kind (hall e he)).2.1]
      subst hrs
      refine ⟨r, rest, n1, o1, a1, h, mr, pkt, rfl, by simp [htr], ?_, ?_⟩
      · cases key <;>
          simp [htr, List.filter_cons, List.filter_append, h1, Event.is_header, send_event]
      · cases key <;>
          simp [htr, List.filter_cons, List.filter_append, h2, Event.is_marshal,
            send_event]

theorem C7_marshalled_sequence_witness :
    (res_nupdate demoConsts (demoEnv true true 40 30 ansNoError) () (demoStack 0)
        demoStatp [recA, recA2] none).trace.filter Event.is_header =
      [Event.mkupdrec 0 "example.com" 1 6 0 (some ⟨0, "example.com", 1, 6, 0⟩)] ∧
    ∃ h mr pkt,
      (res_nupdate demoConsts (demoEnv true true 40 30 ansNoError) () (demoStack 0)
        demoStatp [recA, recA2] none).trace.filter Event.is_marshal =
      [Event.nmkupdate [h, recA, recA2] 1024 mr pkt] := by
  have htr : (res_nupdate demoConsts (demoEnv true true 40 30 ansNoError) () (demoStack 0)
        demoStatp [recA, recA2] none).trace =
      [Event.findzonecut "host.example.com" 1 2 "example.com" [167772161, 167772162, 0],
       Event.malloc true,
       Event.findzonecut "www.Example.COM" 1 2 "Example.COM" [167772161, 167772162, 0],
       Event.mkupdrec 0 "example.com" 1 6 0 (some ⟨0, "example.com", 1, 6, 0⟩),
       Event.nmkupdate [⟨0, "example.com", 1, 6, 0⟩, recA, recA2] 1024 40 [6, 1, 1],
       Event.ns_store ⟨[demoEp 167772161, demoEp 167772162, demoEp 3], 2⟩,
       Event.nsend ⟨[demoEp 167772161, demoEp 167772162, demoEp 3], 2⟩ [6, 1, 1] 40 512
         30 ansNoError,
       Event.ns_store ⟨[demoEp 1, demoEp 167772162, demoEp 3], 1⟩,
       Event.freeupdrec (some ⟨0, "example.com", 1, 6, 0⟩),
       Event.free] := by
    decide
  obtain ⟨r, rest, n0, o0, a0, h, mr, pkt, hrs, hhead, hh, hm⟩ :=
    C7_marshalled_sequence demoConsts (demoEnv true true 40 30 ansNoError) () (demoStack 0)
      demoStatp [recA, recA2] none (by decide)
      (by
        intro d cl n o a hmem
        rw [htr] at hmem
        simp only [List.mem_cons, Event.findzonecut.injEq, reduceCtorEq, List.not_mem_nil,
          or_false, false_or] at hmem
        rcases hmem with ⟨_, _, rfl, _⟩ | ⟨_, _, rfl, _⟩ <;> decide)
      (by
        intro d0 c0 n0 o0 a0 d cl n o a hhead hmem
        rw [htr] at hhead hmem
        simp only [List.head?_cons, Option.some.injEq, Event.findzonecut.injEq] at hhead
        simp only [List.tail_cons, List.mem_cons, Event.findzonecut.injEq, reduceCtorEq,
          List.not_mem_nil, or_false, false_or] at hmem
        obtain ⟨_, rfl, _, rfl, _⟩ := hhead
        obtain ⟨_, rfl, _, rfl, _⟩ := hmem
        decide)
      (by decide)
      (by
        intro s d cl t ttl hmem
        rw [htr] at hmem
        simp at hmem)
  exact ⟨by decide, h, mr, pkt, hm⟩

/-! ## C8: allocation failure -/

/-- C8: `malloc` returns `NULL` for the first record; `res_nupdate` returns
whatever `rcode` held at entry, for instance 0. -/
theorem C8_malloc_failure_returns_indeterminate (g : Int) :
    (res_nupdate demoConsts (demoEnv false true 40 30 ansNoError) () (demoStack g)
        demoStatp [recA] none).ret = some g ∧
    (res_nupdate demoConsts (demoEnv false true 40 30 ansNoError) () (demoStack g)
        demoStatp [recA] none).trace =
      [Event.findzonecut "host.example.com" 1 2 "example.com" [167772161, 167772162, 0],
       Event.malloc false] := by
  constructor <;> rfl

/-! ## C9: the send -/

/-- C9: a call that sends does so exactly once, through `res_nsendsigned` with
the supplied key when a key is given and through `res_nsend` otherwise, with
the packet the marshal primitive filled, the value it returned as held in
`unsigned n` (the returned length itself when that is not negative), and an
answer capacity of `PACKETSZ`. -/
theorem C9_exactly_one_send (c : Consts) (env : Env W) (w : W) (u : Indeterminate)
    (statp : res_state) (rs : List ns_updrec) (key : Option ns_tsig_key) (e : Event)
    (he : e ∈ (res_nupdate c env w u statp rs key).trace) (hs : e.is_send = true) :
    (res_nupdate c env w u statp rs key).trace.filter Event.is_send = [e] ∧
    ∃ rr mr pkt st sr ans,
      (res_nupdate c env w u statp rs key).trace.filter Event.is_marshal =
        [Event.nmkupdate rr (2 * c.PACKETSZ) mr pkt] ∧
      e = (match key with
        | some k => Event.nsendsigned st pkt (to_unsigned mr) k c.PACKETSZ sr ans
        | none => Event.nsend st pkt (to_unsigned mr) c.PACKETSZ sr ans) ∧
      (0 ≤ mr → mr < 4294967296 → ((to_unsigned mr : Nat) : Int) = mr) := by
  have hf : e ∈ (res_nupdate c env w u statp rs key).trace.filter Event.is_send :=
    List.mem_filter.mpr ⟨he, hs⟩
  rcases sends_of_run c env w u statp rs key with ⟨h0, _⟩ |
    ⟨r, rest, n, o, a, h, mr, pkt, sr, ans, _, _, _, hm, hsd⟩
  · rw [h0] at hf
    simp at hf
  · rw [hsd, List.mem_singleton] at hf
    subst hf
    refine ⟨hsd, _, mr, pkt, _, sr, ans, hm, rfl, ?_⟩
    intro h1 h2
    unfold to_unsigned
    rw [Int.emod_eq_of_lt h1 h2]
    exact Int.toNat_of_nonneg h1

theorem C9_exactly_one_send_witness :
    (res_nupdate demoConsts (demoEnv true true 40 30 ansNoError) () (demoStack 0)
        demoStatp [recA] (some demoKey)).trace.filter Event.is_send =
      [Event.nsendsigned ⟨[demoEp 167772161, demoEp 167772162, demoEp 3], 2⟩ [6, 1] 40 demoKey
        512 30 ansNoError] :=
  (C9_exactly_one_send demoConsts (demoEnv true true 40 30 ansNoError) () (demoStack 0)
    demoStatp [recA] (some demoKey)
    (Event.nsendsigned ⟨[demoEp 167772161, demoEp 167772162, demoEp 3], 2⟩ [6, 1] 40 demoKey
      512 30 ansNoError)
    (by decide) (by decide)).1

/-! ## C10: nameserver promotion -/

/-- C10: for `n <= MAXNS`, `nsprom(dst, src, n)` returns `n`, leaves in
`dst[i]`, for each `i < n`, the endpoint of `src[i]` (family `AF_INET`, port
`NS_DEFAULTPORT` in network byte order, every other byte zero) and leaves
`dst[i]` unchanged for `i >= n`; so the handle that `res_nupdate` passes to the
send primitive has `nscount` equal to the server count of the zone group (the
first record's resolution) and the endpoints of its servers in its first
`nscount` entries. -/
theorem C10_nameserver_promotion (c : Consts) (env : Env W) (w : W) (u : Indeterminate)
    (statp : res_state) (rs : List ns_updrec) (key : Option ns_tsig_key)
    (dst : List sockaddr_in) (src : List in_addr) (n : Int)
    (st : res_state) (pkt : List Nat) (len : Nat) (sr : Int) (ans : List Nat)
    (d0 : String) (c0 : Nat) (n0 : Int) (o0 : String) (a0 : List in_addr)
    (hn : n ≤ c.MAXNS) (hdst : dst.length = c.MAXNS)
    (hsrc : src.length = c.MAXNS) :
    ((nsprom c dst src n).2 = n ∧
      (nsprom c dst src n).1.length = dst.length ∧
      ∀ i : Nat,
        ((i : Int) < n →
          ∃ x, src[i]? = some x ∧ (nsprom c dst src n).1[i]? = some (endpoint c x)) ∧
        (n ≤ (i : Int) → (nsprom c dst src n).1[i]? = dst[i]?)) ∧
    (statp.nsaddr_list.length = c.MAXNS → a0.length = c.MAXNS → n0 ≤ c.MAXNS →
      (res_nupdate c env w u statp rs key).trace.head? =
        some (Event.findzonecut d0 c0 n0 o0 a0) →
      send_event c key st pkt len sr ans ∈ (res_nupdate c env w u statp rs key).trace →
      st.nscount = n0 ∧
      ∀ i : Nat, (i : Int) < n0 →
        ∃ x, a0[i]? = some x ∧ st.nsaddr_list[i]? = some (endpoint c x)) := by
  have key_fact : ∀ (dst : List sockaddr_in) (src : List in_addr) (n : Int) (i : Nat),
      n ≤ c.MAXNS → dst.length = c.MAXNS → src.length = c.MAXNS → (i : Int) < n →
      ∃ x, src[i]? = some x ∧ (nsprom c dst src n).1[i]? = some (endpoint c x) := by
    intro dst src n i hn hdst hsrc hi
    have hi1 : i < n.toNat := by omega
    have hi2 : i < src.length := by omega
    have hi3 : i < dst.length := by omega
    refine ⟨src[i], List.getElem?_eq_getElem hi2, ?_⟩
    rw [nsprom_getElem?]
    simp [hi1, hi3, List.getD_eq_getElem?_getD, List.getElem?_eq_getElem hi2]
  refine ⟨⟨rfl, nsprom_length c dst src n, fun i => ⟨key_fact dst src n i hn hdst hsrc, ?_⟩⟩, ?_⟩
  · intro hi
    have hi1 : ¬ i < n.toNat := by omega
    rw [nsprom_getElem?]
    simp [hi1]
  · intro hlen ha0 hn0 hhead hsent
    have hf : send_event c key st pkt len sr ans ∈
        (res_nupdate c env w u statp rs key).trace.filter Event.is_send :=
      List.mem_filter.mpr ⟨hsent, send_event_is_send c key st pkt len sr ans⟩
    rcases sends_of_run c env w u statp rs key with ⟨h0, _⟩ |
      ⟨r, rest, n1, o1, a1, h, mr1, pkt2, sr1, ans1, _, hhead1, _, _, hs⟩
    · rw [h0] at hf
      simp at hf
    · rw [hs, List.mem_singleton] at hf
      obtain ⟨hst, _⟩ := send_event_inj c key _ _ _ _ _ _ _ _ _ _ hf
      rw [hhead1] at hhead
      simp only [Option.some.injEq, Event.findzonecut.injEq] at hhead
      obtain ⟨_, _, rfl, _, rfl⟩ := hhead
      subst hst
      exact ⟨rfl, fun i hi => key_fact statp.nsaddr_list a1 n1 i hn0 hlen ha0 hi⟩

theorem C10_nameserver_promotion_witness :
    (nsprom demoConsts [demoEp 1, demoEp 2, demoEp 3] [167772161, 167772162, 0] 2).1 =
      [demoEp 167772161, demoEp 167772162, demoEp 3] ∧
    (∃ x, [167772161, 167772162, (0 : Nat)][1]? = some x ∧
      [demoEp 167772161, demoEp 167772162, demoEp 3][1]? = some (endpoint demoConsts x)) :=
  have h := C10_nameserver_promotion demoConsts (demoEnv true true 40 30 ansNoError) ()
    (demoStack 0) demoStatp [recA] none
    [demoEp 1, demoEp 2, demoEp 3] [167772161, 167772162, 0] 2
    ⟨[demoEp 167772161, demoEp 167772162, demoEp 3], 2⟩ [6, 1] 40 30 ansNoError
    "host.example.com" 1 2 "example.com" [167772161, 167772162, 0]
    (by decide) (by decide) (by decide)
  ⟨by decide, (h.2 (by decide) (by decide) (by decide) (by decide) (by decide)).2 1 (by decide)⟩

/-! ## C13: the empty list -/

/-- C13: the grouping loop falls through to the header construction with
`zptr == NULL` exactly when the record list is empty, and `res_nupdate` has no
defined result (it dereferences the null `zptr`) exactly then; for a non-empty
list that reaches the header construction, the zone group exists and holds the
origin, the server set and the server count that the first record's zone-cut
resolution returned, the first record's class, and all the records. -/
theorem C13_null_group_iff_empty_list (c : Consts) (env : Env W) (w : W) (u : Indeterminate)
    (statp : res_state) (rs : List ns_updrec) (key : Option ns_tsig_key) :
    (((loop c env statp rs { world := w, trace := [], zptr := none, rcode := u.rcode }).1 =
          false ∧
        (loop c env statp rs { world := w, trace := [], zptr := none, rcode := u.rcode }).2.zptr =
          none) ↔ rs = []) ∧
    ((res_nupdate c env w u statp rs key).ret = none ↔ rs = []) ∧
    (rs = [] → (res_nupdate c env w u statp rs key).trace = [] ∧
      (res_nupdate c env w u statp rs key).statp = statp) ∧
    (∀ r rest, rs = r :: rest →
      (loop c env statp rs { world := w, trace := [], zptr := none, rcode := u.rcode }).1 =
        false →
      ∃ n o a t,
        (loop c env statp rs
          { world := w, trace := [], zptr := none, rcode := u.rcode }).2.trace =
          Event.findzonecut r.r_dname r.r_class n o a :: t ∧
        (loop c env statp rs
          { world := w, trace := [], zptr := none, rcode := u.rcode }).2.zptr =
          some { z_origin := o, z_class := r.r_class, z_nsaddrs := a, z_nscount := n,
                 z_flags := 0, z_rrlist := rs }) := by
  cases rs with
  | nil =>
    refine ⟨by simp [loop], by simp [res_nupdate, loop], ?_, ?_⟩
    · intro _
      simp [res_nupdate, loop]
    · intro r rest h
      simp at h
  | cons r rest =>
    generalize hl : loop c env statp (r :: rest)
      { world := w, trace := [], zptr := none, rcode := u.rcode } = lr
    obtain ⟨b, s1⟩ := lr
    obtain ⟨n, o, a, t, ht, hcase⟩ := loop_none_spec c env statp r rest _ b s1 rfl hl
    simp only [List.nil_append] at ht
    refine ⟨?_, ?_, by simp, ?_⟩
    · rcases hcase with ⟨rfl, _⟩ | ⟨rfl, _⟩ | ⟨rfl, _⟩ | ⟨rfl, _, _, hzp, _⟩
      · simp
      · simp
      · simp
      · simp [hzp]
    · rcases res_nupdate_anatomy c env w u statp (r :: rest) key with
        ⟨h, _⟩ | ⟨_, _, _, _, _, _, h⟩
      · simp at h
      · rcases h with ⟨_, hret, _⟩ | ⟨_, hret, _⟩ | ⟨_, _, _, _, _, hret, _⟩ |
          ⟨_, _, _, hret, _⟩ | ⟨_, _, _, _, _, _, _, _, _, _, _, _, hret, _⟩ <;>
          simp [hret]
    · intro r1 rest1 h hb
      simp only [List.cons.injEq] at h
      obtain ⟨rfl, rfl⟩ := h
      simp only at hb
      subst hb
      rcases hcase with ⟨hb, _⟩ | ⟨hb, _⟩ | ⟨hb, _⟩ | ⟨_, _, _, hzp, _⟩
      · simp at hb
      · simp at hb
      · simp at hb
      · exact ⟨n, o, a, t, ht, hzp⟩

theorem C13_null_group_iff_empty_list_witness :
    (res_nupdate demoConsts (demoEnv true true 40 30 ansNoError) () (demoStack 0)
        demoStatp [] none).ret = none ∧
    (res_nupdate demoConsts (demoEnv true true 40 30 ansNoError) () (demoStack 0)
        demoStatp [recA] none).ret ≠ none ∧
    ∃ n o a t,
      (loop demoConsts (demoEnv true true 40 30 ansNoError) demoStatp [recA]
        { world := (), trace := [], zptr := none, rcode := (demoStack 0).rcode }).2.trace =
        Event.findzonecut "host.example.com" 1 n o a :: t ∧
      (loop demoConsts (demoEnv true true 40 30 ansNoError) demoStatp [recA]
        { world := (), trace := [], zptr := none, rcode := (demoStack 0).rcode }).2.zptr =
        some { z_origin := o, z_class := 1, z_nsaddrs := a, z_nscount := n, z_flags := 0,
               z_rrlist := [recA] } :=
  ⟨(C13_null_group_iff_empty_list demoConsts (demoEnv true true 40 30 ansNoError) ()
      (demoStack 0) demoStatp [] none).2.1.mpr rfl,
   fun h => absurd
     ((C13_null_group_iff_empty_list demoConsts (demoEnv true true 40 30 ansNoError) ()
       (demoStack 0) demoStatp [recA] none).2.1.mp h) (by decide),
   (C13_null_group_iff_empty_list demoConsts (demoEnv true true 40 30 ansNoError) ()
      (demoStack 0) demoStatp [recA] none).2.2.2 recA [] rfl (by decide)⟩

end ResUpdate

namespace Errwarn

/-! ## Buffers and the loop of `do_percentm` -/

theorem take_set_succ (o : List Char) (p : Nat) (ch : Char) (hp : p < o.length) :
    (o.set p ch).take (p + 1) = o.take p ++ [ch] := by
  rw [List.set_eq_take_append_cons_drop, if_pos hp]
  have hlen : (o.take p).length = p := by simp; omega
  rw [List.take_append_eq_append_take, hlen]
  simp [List.take_of_length_le, hlen]

theorem take_set_self (o : List Char) (p : Nat) (ch : Char) :
    (o.set p ch).take p = o.take p := by
  by_cases hp : p < o.length
  · rw [List.set_eq_take_append_cons_drop, if_pos hp]
    have hlen : (o.take p).length = p := by simp; omega
    rw [List.take_append_eq_append_take, hlen]
    simp [List.take_of_length_le, hlen]
  · rw [List.set_eq_of_length_le (by omega)]

theorem strcpy_eq (src : List Char) : ∀ (mem : List Char) (dst : Nat),
    dst + src.length < mem.length →
    strcpy mem dst src = mem.take dst ++ src ++ NUL :: mem.drop (dst + src.length + 1) := by
  induction src with
  | nil =>
    intro mem dst h
    simp only [List.length_nil, Nat.add_zero] at h
    simp [strcpy, List.set_eq_take_append_cons_drop, h]
  | cons ch rest ih =>
    intro mem dst h
    simp only [List.length_cons] at h
    have hd : dst < mem.length := by omega
    rw [strcpy, ih (mem.set dst ch) (dst + 1) (by simp; omega)]
    rw [take_set_succ mem dst ch hd]
    have : (mem.set dst ch).drop (dst + 1 + rest.length + 1) =
        mem.drop (dst + (rest.length + 1) + 1) := by
      rw [List.drop_set_of_lt _ _ (by omega)]
      congr 1
      omega
    rw [this]
    simp

theorem c_str_append_NUL (s suf : List Char) (hs : NUL ∉ s) : c_str (s ++ NUL :: suf) = s := by
  unfold c_str
  rw [List.takeWhile_append_of_pos]
  · simp [List.takeWhile]
  · intro a ha
    have : a ≠ NUL := fun h => hs (h ▸ ha)
    simpa using this

theorem strlen_after_strcpy (mem : List Char) (p : Nat) (ch : Char) (mt : List Char)
    (hm : NUL ∉ ch :: mt) (hcap : p + (ch :: mt).length < mem.length) :
    strlen (strcpy mem p (ch :: mt)) (p + 1) = mt.length := by
  rw [strcpy_eq _ _ _ hcap]
  unfold strlen
  have hlen : (mem.take p).length = p := by
    simp only [List.length_take, List.length_cons] at *
    omega
  have : (mem.take p ++ ch :: mt ++ NUL :: mem.drop (p + (ch :: mt).length + 1)).drop (p + 1) =
      mt ++ NUL :: mem.drop (p + (ch :: mt).length + 1) := by
    rw [List.append_assoc, List.drop_append_eq_append_drop, hlen]
    have h1 : (mem.take p).drop (p + 1) = [] := by
      apply List.drop_eq_nil_of_le
      omega
    simp [h1]
  rw [this, c_str_append_NUL]
  intro h
  exact hm (List.mem_cons_of_mem _ h)

theorem percentm_spec_cons_ne (m : List Char) (ch : Char) (s : List Char) (h : ch ≠ '%') :
    percentm_spec m (ch :: s) = ch :: percentm_spec m s := by
  cases s with
  | nil => simp [percentm_spec]
  | cons d rest => simp [percentm_spec, h]

/-- The loop of `do_percentm` computes `percentm_spec`: from the plain state
(first part) and from the state right after a `%` was copied (second part),
the characters stored in `obuf` from the start of the pending text on are the
specified output, and nothing before them is touched. -/
theorem do_percentm_loop_spec (m : List Char) (hm1 : m ≠ []) (hm2 : NUL ∉ m) :
    ∀ (s : List Char), NUL ∉ s →
    (∀ (p : Nat) (o : List Char), p + (percentm_spec m s).length < o.length →
      (do_percentm_loop m s false p o).1 = p + (percentm_spec m s).length ∧
      (do_percentm_loop m s false p o).2.length = o.length ∧
      (do_percentm_loop m s false p o).2.take (do_percentm_loop m s false p o).1 =
        o.take p ++ percentm_spec m s) ∧
    (∀ (p : Nat) (o : List Char), o[p]? = some '%' →
      p + (percentm_spec m ('%' :: s)).length < o.length →
      (do_percentm_loop m s true (p + 1) o).1 = p + (percentm_spec m ('%' :: s)).length ∧
      (do_percentm_loop m s true (p + 1) o).2.length = o.length ∧
      (do_percentm_loop m s true (p + 1) o).2.take (do_percentm_loop m s true (p + 1) o).1 =
        o.take p ++ percentm_spec m ('%' :: s)) := by
  intro s
  induction s with
  | nil =>
    intro _
    refine ⟨fun p o _ => by simp [do_percentm_loop, percentm_spec], fun p o hp _ => ?_⟩
    simp only [do_percentm_loop, percentm_spec, List.length_singleton, true_and]
    rw [List.take_succ, hp]
    simp
  | cons ch s ih =>
    intro hs
    have hch : ch ≠ NUL := fun h => hs (h ▸ List.mem_cons_self _ _)
    have hs1 : NUL ∉ s := fun h => hs (List.mem_cons_of_mem _ h)
    obtain ⟨ihA, ihB⟩ := ih hs1
    constructor
    · intro p o hcap
      by_cases hpc : ch = '%'
      · subst hpc
        have hp : p < o.length := by omega
        have hset : (o.set p '%')[p]? = some '%' := by simp [hp]
        have hB := ihB p (o.set p '%') hset (by simpa using hcap)
        simp only [do_percentm_loop, hch, if_false, if_true, Bool.false_eq_true]
        simpa [take_set_self] using hB
      · rw [percentm_spec_cons_ne m ch s hpc] at hcap ⊢
        simp only [List.length_cons] at hcap
        have hp : p < o.length := by omega
        have hA := ihA (p + 1) (o.set p ch) (by simp; omega)
        simp only [do_percentm_loop, hch, hpc, if_false, Bool.false_eq_true]
        rw [take_set_succ o p ch hp] at hA
        refine ⟨by rw [hA.1]; simp; omega, by simpa using hA.2.1, ?_⟩
        rw [hA.2.2]
        simp
    · intro p o hp hcap
      have hpl : p < o.length := by
        rcases Nat.lt_or_ge p o.length with h | h
        · exact h
        · rw [List.getElem?_eq_none h] at hp
          simp at hp
      by_cases hmc : ch = 'm'
      · subst hmc
        have hspec : percentm_spec m ('%' :: 'm' :: s) = m ++ percentm_spec m s := by
          simp [percentm_spec]
        rw [hspec] at hcap ⊢
        simp only [List.length_append] at hcap
        obtain ⟨c0, mt, rfl⟩ := List.exists_cons_of_ne_nil hm1
        have hcpy : p + (c0 :: mt).length < o.length := by omega
        have hlen := strlen_after_strcpy o p c0 mt hm2 hcpy
        have heq := strcpy_eq (c0 :: mt) o p hcpy
        have hA := ihA (p + 1 + mt.length) (strcpy o p (c0 :: mt)) (by
          rw [heq]
          simp only [List.length_append, List.length_take, List.length_cons, List.length_drop]
          simp only [List.length_cons] at hcap hcpy
          omega)
        simp only [do_percentm_loop, hch, if_false, if_true, Nat.add_sub_cancel, hlen]
        have htake : (strcpy o p (c0 :: mt)).take (p + 1 + mt.length) = o.take p ++ c0 :: mt := by
          rw [heq, List.append_assoc]
          have hl : (o.take p).length = p := by
            simp only [List.length_take]
            omega
          rw [List.take_append_eq_append_take, hl]
          have h1 : p + 1 + mt.length - p = (c0 :: mt).length := by
            simp only [List.length_cons]
            omega
          rw [h1, List.take_left, List.take_of_length_le (by omega)]
        have hlo : (strcpy o p (c0 :: mt)).length = o.length := by
          rw [heq]
          simp only [List.length_append, List.length_take, List.length_cons, List.length_drop]
          simp only [List.length_cons] at hcpy
          omega
        rw [htake] at hA
        refine ⟨by rw [hA.1]; simp; omega, by rw [hA.2.1, hlo], ?_⟩
        rw [hA.2.2]
        simp
      · have hspec : percentm_spec m ('%' :: ch :: s) = '%' :: ch :: percentm_spec m s := by
          simp [percentm_spec, hmc]
        rw [hspec] at hcap ⊢
        simp only [List.length_cons] at hcap
        have hA := ihA (p + 1 + 1) (o.set (p + 1) ch) (by simp; omega)
        simp only [do_percentm_loop, hch, hmc, if_false, if_true]
        rw [take_set_succ o (p + 1) ch (by omega), List.take_succ, hp] at hA
        refine ⟨by rw [hA.1]; simp; omega, by simpa using hA.2.1, ?_⟩
        rw [hA.2.2]
        simp

theorem percentm_spec_mem (m : List Char) : ∀ (n : Nat) (s : List Char), s.length ≤ n →
    ∀ x ∈ percentm_spec m s, x ∈ m ∨ x ∈ s := by
  intro n
  induction n with
  | zero =>
    intro s hs x hx
    have : s = [] := List.length_eq_zero.mp (by omega)
    subst this
    simp [percentm_spec] at hx
  | succ n ih =>
    intro s hs x hx
    match s, hs, hx with
    | [], _, hx => simp [percentm_spec] at hx
    | [ch], _, hx => exact Or.inr (by simpa [percentm_spec] using hx)
    | ch :: d :: rest, hs, hx =>
      simp only [List.length_cons] at hs
      simp only [percentm_spec] at hx
      split at hx
      · split at hx
        · rcases List.mem_append.mp hx with h | h
          · exact Or.inl h
          · rcases ih rest (by omega) x h with h1 | h1
            · exact Or.inl h1
            · exact Or.inr (by simp [h1])
        · simp only [List.mem_cons] at hx
          rcases hx with h | h | h
          · exact Or.inr (by simp [h])
          · exact Or.inr (by simp [h])
          · rcases ih rest (by omega) x h with h1 | h1
            · exact Or.inl h1
            · exact Or.inr (by simp [h1])
      · simp only [List.mem_cons] at hx
        rcases hx with h | h
        · exact Or.inr (by simp [h])
        · rcases ih (d :: rest) (by simp; omega) x h with h1 | h1
          · exact Or.inl h1
          · exact Or.inr (List.mem_cons_of_mem _ h1)

theorem percentm_spec_verbatim (m : List Char) : ∀ (s : List Char), '%' ∉ s →
    percentm_spec m s = s := by
  intro s
  induction s with
  | nil => intro _; simp [percentm_spec]
  | cons ch s ih =>
    intro h
    have h1 : ch ≠ '%' := fun e => h (e ▸ List.mem_cons_self _ _)
    rw [percentm_spec_cons_ne m ch s h1, ih (fun e => h (List.mem_cons_of_mem _ e))]

/-! ## C11: the substitution of `%m` -/

/-- C11: for a message `m` that is not empty, an input `ibuf` and an output
buffer that the result fits in, `do_percentm` leaves in `obuf` the C string in
which each `%` that starts a conversion and is followed by `m` is replaced,
with that `m`, by the message, every other character being copied; the string
is `NUL`-terminated; an input without `%` is copied verbatim and `%%m` stays
`%%m`. -/
theorem C11_do_percentm_substitutes (err : Option (List Char)) (obuf ibuf : List Char)
    (hm1 : error_message err ≠ []) (hm2 : NUL ∉ error_message err) (hs : NUL ∉ ibuf)
    (hcap : (percentm_spec (error_message err) ibuf).length < obuf.length) :
    c_str (do_percentm err obuf ibuf) = percentm_spec (error_message err) ibuf ∧
    (do_percentm err obuf ibuf)[(percentm_spec (error_message err) ibuf).length]? = some NUL ∧
    (do_percentm err obuf ibuf).length = obuf.length ∧
    ('%' ∉ ibuf → c_str (do_percentm err obuf ibuf) = ibuf) ∧
    (ibuf = ['%', '%', 'm'] → c_str (do_percentm err obuf ibuf) = ['%', '%', 'm']) := by
  obtain ⟨h1, h2, h3⟩ := (do_percentm_loop_spec (error_message err) hm1 hm2 ibuf hs).1 0 obuf
    (by simpa using hcap)
  simp only [Nat.zero_add, List.take_zero, List.nil_append] at h1 h3
  have hlt : (do_percentm_loop (error_message err) ibuf false 0 obuf).1 <
      (do_percentm_loop (error_message err) ibuf false 0 obuf).2.length := by
    rw [h1, h2]
    exact hcap
  have hout : do_percentm err obuf ibuf =
      percentm_spec (error_message err) ibuf ++
        NUL :: (do_percentm_loop (error_message err) ibuf false 0 obuf).2.drop
          ((do_percentm_loop (error_message err) ibuf false 0 obuf).1 + 1) := by
    unfold do_percentm
    simp only
    rw [List.set_eq_take_append_cons_drop, if_pos hlt, h3]
  have hnul : NUL ∉ percentm_spec (error_message err) ibuf := by
    intro h
    rcases percentm_spec_mem (error_message err) ibuf.length ibuf (Nat.le_refl _) NUL h with e | e
    · exact hm2 e
    · exact hs e
  have hstr : c_str (do_percentm err obuf ibuf) = percentm_spec (error_message err) ibuf := by
    rw [hout, c_str_append_NUL _ _ hnul]
  refine ⟨hstr, ?_, ?_, ?_, ?_⟩
  · rw [hout, List.getElem?_append_right (Nat.le_refl _)]
    simp
  · unfold do_percentm
    simp [h2]
  · intro h
    rw [hstr, percentm_spec_verbatim _ _ h]
  · intro h
    rw [hstr, h]
    simp [percentm_spec]

theorem C11_do_percentm_substitutes_witness :
    c_str (do_percentm (some ['E', 'I', 'O']) (List.replicate 12 'x')
      ['r', 'd', ':', ' ', '%', 'm', '%', '%', 'm']) =
      ['r', 'd', ':', ' ', 'E', 'I', 'O', '%', '%', 'm'] :=
  (C11_do_percentm_substitutes (some ['E', 'I', 'O']) (List.replicate 12 'x')
    ['r', 'd', ':', ' ', '%', 'm', '%', '%', 'm']
    (by decide) (by decide) (by decide) (by decide)).1.trans (by decide)

end Errwarn

namespace Bootp

/-! ## The transcript of `bootp` -/

/-- The send part adds no evaluation of a boolean option to the transcript. -/
theorem bootp_send_trace {W : Type} (c : Consts) (env : Env W) (w : W) (tr : List Event)
    (packet : packet) (raw : dhcp_packet) (len : Int) (oc : Option Nat) (b : Bool)
    (h : Event.eval_boolean oc b ∈ (bootp_send c env w tr packet raw len).trace) :
    Event.eval_boolean oc b ∈ tr := by
  unfold bootp_send at h
  simp only at h
  split_ifs at h <;> simpa using h

/-- Whenever `bootp` sends a packet, every evaluation of the `SV_ALLOW_BOOTP`
option during the call returned false. -/
theorem bootp_sends_only_when_option_false {W : Type} (c : Consts) (env : Env W) (w : W)
    (packet : packet) (e : Event) (he : e ∈ (bootp c env w packet).trace)
    (hs : e.is_send = true) (oc : Option Nat) (b : Bool)
    (hb : Event.eval_boolean oc b ∈ (bootp c env w packet).trace) : b = false := by
  generalize hout : bootp c env w packet = out at he hb
  unfold bootp at hout
  simp only at hout
  repeat' split at hout
  all_goals subst hout
  all_goals first
    | (exfalso
       revert hs
       revert e
       simp [Event.is_send]
       done)
    | (have hb1 := bootp_send_trace _ _ _ _ _ _ _ _ _ hb
       simp only [List.mem_cons, List.mem_append, List.mem_singleton, List.not_mem_nil,
         or_false, false_or, Event.eval_boolean.injEq, reduceCtorEq] at hb1
       rename_i hb1f hb2f
       rcases hb1 with ⟨_, h⟩ | ⟨_, h⟩
       · rw [h]
         simpa using hb1f
       · rw [h]
         simpa using hb2f)

/-! ## C12: the allow-bootp check -/

/-- C12: a BOOTREQUEST from a host with a fixed address reaches the check of
`SV_ALLOW_BOOTP`.  When the option evaluates to true (BOOTP allowed) `bootp`
logs "Ignoring BOOTP client" and returns without sending; when it evaluates
to false (BOOTP not allowed) `bootp` sends a packet whose `op` is `BOOTREPLY`. -/
theorem C12_allow_bootp_check_inverted :
    (bootp demoConsts (demoEnv true) () demoRequest).trace =
      [Event.note "BOOTREQUEST from %s via %s",
       Event.eval_boolean (some 1) true,
       Event.note "Ignoring BOOTP client %s"] ∧
    (bootp demoConsts (demoEnv false) () demoRequest).trace.map Event.sent_op =
      [none, none, none, none, some 2] ∧
    (bootp demoConsts (demoEnv false) () demoRequest).trace.take 4 =
      [Event.note "BOOTREQUEST from %s via %s",
       Event.eval_boolean (some 1) false,
       Event.eval_boolean (some 1) false,
       Event.note "BOOTREPLY for %s to %s (%s) via %s"] := by
  decide

end Bootp
